import Mathlib

/-!
Verification development for the Conversational Task-Completion Orchestrator
of the Jira AI assistant repository.

The definitions below are a shallow embedding of the TypeScript sources of
`mindtraqk-backend-main/kt-assistant-service`:

* `agentConversation.service.ts` — the per-session conversation state machine
  (`startSession`, `handleMessage`, the `isAffirmative` / `saidDone` regexes);
* the `AgentSession` Mongoose model (interface `ITaskState` / `TaskStateSchema`)
  — note that the persistence schema omits the `pendingStatusDone` path, so a
  save drops that field (Mongoose strict mode), which we model in
  `persistTask`;
* `llmService` (`generateSummary`, `applyEdits`, `analyzeUpdateType`) layered
  over the AI-engine HTTP client, whose per-call outcome we model as an
  oracle value of type `Except String EngineResponse` (`Except.error` models a
  thrown transport error, `Except.ok` an HTTP-level response);
* `jiraService` (`addComment`, `getTransitionId`, `updateTask`), whose
  externally visible calls we log as `JiraEffect`s and whose outcomes are
  oracle values in `TurnEnv`;
* `AIService.processMessage` retry loop and `isRetryable` from `ai.types.ts`.

Machine integers do not occur; JavaScript strings are modelled as Lean
`String`s restricted to the operations the source uses (`trim`,
`toLowerCase`, truthiness), re-implemented over character lists so that the
kernel can evaluate them.
-/

namespace KTAssistant

/-! ## JavaScript string primitives used by the source -/

/-- ASCII whitespace recognised by `String.prototype.trim` (the subset that
occurs in this development). -/
def isJsSpace (c : Char) : Bool :=
  c = ' ' || c = '\t' || c = '\n' || c = '\r'

/-- Model of JavaScript `String.prototype.trim`. -/
def jsTrim (s : String) : String :=
  ⟨((s.data.dropWhile isJsSpace).reverse.dropWhile isJsSpace).reverse⟩

/-- Model of JavaScript `String.prototype.toLowerCase` on ASCII data. -/
def jsToLower (s : String) : String :=
  ⟨s.data.map Char.toLower⟩

/-- JavaScript string truthiness: `undefined` and `""` are falsy. -/
def falsyStr : Option String → Bool
  | none => true
  | some s => s = ""

/-- JavaScript `a || b` on an optional string `a` with string fallback `b`:
returns `a` when truthy, otherwise `b`. -/
def jsOr (a : Option String) (b : String) : String :=
  match a with
  | none => b
  | some s => if s = "" then b else s

/-- JavaScript template interpolation renders `undefined` as the text
`undefined`; used where the source applies a non-null assertion to a field
that is syntactically optional. -/
def jsString (o : Option String) : String :=
  o.getD ("undefined")

/-! ## Word-boundary matching, embedding the two regexes of
`agentConversation.service.ts`:

    const isAffirmative = (s) => /\b(yes|yep|yeah|y|ok|okay|sure|go ahead|confirm|proceed)\b/i.test(s)
    const saidDone = (s) => /\b(done|completed|complete|finished|resolved|closed)\b/i.test(s)

A regex `\b(w1|...|wn)\b` with flag `i` accepts exactly the strings that
contain some `wi` at a position whose neighbouring characters (when present)
are non-word characters; the scanner below decides that existential. -/

/-- Regex word character `\w` = `[A-Za-z0-9_]`. -/
def isWordChar (c : Char) : Bool :=
  c.isAlphanum || c = '_'

/-- `hasWordAt w prev s` holds when `s` starts with `w`, the character
`prev` just before `s` (none at string start) is not a word character, and
the character of `s` following `w` (if any) is not a word character: this is
`\b w \b` anchored at the current scan position. -/
def hasWordAt (w : List Char) (prev : Option Char) (s : List Char) : Bool :=
  (match prev with
   | none => true
   | some c => !(isWordChar c)) &&
  w.isPrefixOf s &&
  (match s.drop w.length with
   | [] => true
   | c :: _ => !(isWordChar c))

/-- Scan every position of `s` for a `\b w \b` match; `prev` is the
character preceding the current position. -/
def containsWordAux (w : List Char) : Option Char → List Char → Bool
  | prev, [] => hasWordAt w prev []
  | prev, c :: rest => hasWordAt w prev (c :: rest) || containsWordAux w (some c) rest

/-- Case-insensitive whole-word containment, the meaning of
`/\b(...w...)\b/i.test s` for a single alternative `w`. -/
def containsWord (w s : String) : Bool :=
  containsWordAux (jsToLower w).data none (jsToLower s).data

/-- The alternatives of the `isAffirmative` regex, in source order. -/
def affirmativePhrases : List String :=
  ["yes", "yep", "yeah", "y", "ok", "okay", "sure", "go ahead", "confirm", "proceed"]

/-- The alternatives of the `saidDone` regex, in source order. -/
def donePhrases : List String :=
  ["done", "completed", "complete", "finished", "resolved", "closed"]

/-- `isAffirmative` from `handleMessage`. -/
def isAffirmative (s : String) : Bool :=
  affirmativePhrases.any (fun w => containsWord w s)

/-- `saidDone` from `handleMessage`. -/
def saidDone (s : String) : Bool :=
  donePhrases.any (fun w => containsWord w s)

/-! ## Data model (`AgentSession` model / `utils/enum.ts`) -/

/-- `AgentTaskState` enum from `utils/enum.ts`. -/
inductive AgentTaskState where
  | awaiting_update
  | awaiting_edit_decision
  | awaiting_edit_input
  | awaiting_confirm
  | completed
deriving DecidableEq, Repr

/-- `ITaskState` from the `AgentSession` model: the in-memory shape of a
task subdocument, including the interface-only field `pendingStatusDone`. -/
structure TaskState where
  taskId : String
  title : String
  status : String
  pendingStatusDone : Bool := false
  draftSummary : Option String := none
  finalSummary : Option String := none
  state : AgentTaskState
deriving DecidableEq, Repr

/-- `IAgentSession`: `userId`, `currentIndex`, ordered task list.
`currentIndex` is a JavaScript number that the guard in `handleMessage`
checks for negativity, so it is modelled as `Int`. -/
structure AgentSession where
  userId : String
  currentIndex : Int
  tasks : List TaskState
deriving DecidableEq, Repr

/-- Persistence projection of one task. `TaskStateSchema` in the Mongoose
model declares `taskId`, `title`, `status`, `createdAt`, `updatedAt`,
`draftSummary`, `finalSummary` and `state` — but not `pendingStatusDone`
(which only the TypeScript interface `ITaskState` mentions). Under
Mongoose strict mode a `save` persists schema paths only, so the stored
document always reads back with `pendingStatusDone` undefined (falsy). -/
def persistTask (t : TaskState) : TaskState :=
  { t with pendingStatusDone := false }

/-- Persistence projection of a session (`session.save()` writes schema
paths of every subdocument). -/
def persistSession (s : AgentSession) : AgentSession :=
  { s with tasks := s.tasks.map persistTask }

/-! ## AI-engine layer (`aiEngineClient.ts` / `llmService`) -/

/-- The fields of an `AIEngineProcessResponse` that `llmService` reads. -/
structure EngineResponse where
  success : Bool
  generated_content : Option String := none
  error : Option String := none
  error_message : Option String := none
deriving DecidableEq, Repr

/-- `ensureSuccess` from `llmService`: throw unless the response succeeded
with truthy content; the thrown message is
`error_message || error || fallbackMessage`. -/
def ensureSuccess (r : EngineResponse) (fallbackMessage : String) : Except String Unit :=
  if !r.success || falsyStr r.generated_content then
    .error (jsOr r.error_message (jsOr r.error fallbackMessage))
  else
    .ok ()

/-- `llmService.generateSummary`: call the engine, `ensureSuccess`, return
`generated_content.trim()`. The argument is the oracle outcome of
`aiEngineClient.processMessage` (`Except.error` = thrown transport error,
which the source does not catch). -/
def generateSummary (resp : Except String EngineResponse) : Except String String :=
  match resp with
  | .error e => .error e
  | .ok r =>
    match ensureSuccess r ("Failed to generate task summary") with
    | .error e => .error e
    | .ok _ => .ok (jsTrim (jsString r.generated_content))

/-- `llmService.applyEdits`: same shape as `generateSummary` with its own
fallback message. -/
def applyEdits (resp : Except String EngineResponse) : Except String String :=
  match resp with
  | .error e => .error e
  | .ok r =>
    match ensureSuccess r ("Failed to apply edits to summary") with
    | .error e => .error e
    | .ok _ => .ok (jsTrim (jsString r.generated_content))

/-- The three update types `llmService.analyzeUpdateType` may return. -/
inductive UpdateType where
  | status_only
  | comment_only
  | comment_and_status
deriving DecidableEq, Repr

/-- `response.generated_content.trim().toLowerCase()` from
`analyzeUpdateType`. -/
def normalizeContent (c : Option String) : String :=
  jsToLower (jsTrim (jsString c))

/-- `llmService.analyzeUpdateType`. The source checks
`!response.success || !response.generated_content` and returns
`comment_only`; then compares the normalised content against the three
enum literals, returning `comment_only` for anything else. A thrown
transport error is not caught and propagates. -/
def analyzeUpdateType (resp : Except String EngineResponse) : Except String UpdateType :=
  match resp with
  | .error e => .error e
  | .ok r =>
    if !r.success || falsyStr r.generated_content then
      .ok .comment_only
    else
      let normalized := normalizeContent r.generated_content
      if normalized = "status_only" then .ok .status_only
      else if normalized = "comment_only" then .ok .comment_only
      else if normalized = "comment_and_status" then .ok .comment_and_status
      else .ok .comment_only

/-! ## Jira layer (`utils/jiraService.ts`) -/

/-- One issue of the Jira search result consumed by
`jiraService.getPendingTasks` (`taskId`, `title`, `status`; the timestamp
fields play no role in the claims). -/
structure JiraIssue where
  taskId : String
  title : String
  status : String
deriving DecidableEq, Repr

/-- `jiraService.getPendingTasks` queries Jira with the JQL
`assignee = X AND status = "In Progress" AND created >= -7d`; we model the
external store honouring the status filter (assignee and age filters do not
matter for any claim). -/
def getPendingTasks (issues : List JiraIssue) : List JiraIssue :=
  issues.filter (fun i => i.status = "In Progress")

/-- Externally visible Jira calls that completed without error during a
turn, in order: a posted comment, a transition lookup, an applied status
transition. -/
inductive JiraEffect where
  | addComment (taskId text : String)
  | getTransition (taskId statusName : String)
  | updateStatus (taskId transitionId : String)
deriving DecidableEq, Repr

/-- Oracle outcomes for every external call a single `handleMessage` turn
can make; `Except.error` models the awaited call throwing. -/
structure TurnEnv where
  draftResp : Except String EngineResponse
  editResp : Except String EngineResponse
  analyzeResp : Except String EngineResponse
  addCommentResult : Except String Unit
  transitionIdResult : Except String String
  updateTaskResult : Except String Unit
deriving Repr

/-- Decidable equality on `Except`, used to evaluate turn outcomes in
witnesses. -/
instance instDecEqExcept {α β : Type} [DecidableEq α] [DecidableEq β] :
    DecidableEq (Except α β) := fun x y =>
  match x, y with
  | .error a, .error b =>
    if h : a = b then .isTrue (by rw [h]) else .isFalse (fun hc => by cases hc; exact h rfl)
  | .ok a, .ok b =>
    if h : a = b then .isTrue (by rw [h]) else .isFalse (fun hc => by cases hc; exact h rfl)
  | .error _, .ok _ => .isFalse (fun hc => by cases hc)
  | .ok _, .error _ => .isFalse (fun hc => by cases hc)

/-- Observable outcome of one `handleMessage` turn: the session snapshots
passed to `session.save()` (post persistence projection, in order), the
Jira calls that completed, and the returned reply together with the final
in-memory session (or the propagated exception). -/
structure TurnOutcome where
  saved : List AgentSession
  effects : List JiraEffect
  result : Except String (String × AgentSession)
deriving DecidableEq, Repr

/-! ## The conversation state machine (`agentConversation.service.ts`) -/

/-- `startSession`: fetch pending tasks and create the session document with
`currentIndex = 0` and every task in `AWAITING_UPDATE`. -/
def startSession (userId : String) (issues : List JiraIssue) : AgentSession :=
  { userId := userId
    currentIndex := 0
    tasks := (getPendingTasks issues).map (fun t =>
      { taskId := t.taskId, title := t.title, status := t.status,
        state := .awaiting_update }) }

/-- Replace the task at index `i` (in-memory mutation of
`session.tasks[i]`). -/
def setTask (s : AgentSession) (i : Nat) (t : TaskState) : AgentSession :=
  { s with tasks := s.tasks.set i t }

/-- In-memory mutation `tasks[i].state = st`; out-of-range indices leave the
list unchanged (the source only uses in-range indices here). -/
def setTaskState (tasks : List TaskState) (i : Nat) (st : AgentTaskState) : List TaskState :=
  match tasks.get? i with
  | some t => tasks.set i { t with state := st }
  | none => tasks

/-- `session.tasks[i].title` as interpolated into the advance reply. -/
def titleAt (tasks : List TaskState) (i : Nat) : String :=
  match tasks.get? i with
  | some t => t.title
  | none => "undefined"

/-- The `while (nextIndex < session.tasks.length)` advance loop of
`handleMessage`: first index `≥ start` whose task is not `COMPLETED`. -/
def findNextIncompleteAux : List TaskState → Nat → Option Nat
  | [], _ => none
  | t :: ts, i =>
    if t.state = .completed then findNextIncompleteAux ts (i + 1) else some i

/-- First index `j ≥ start` with `tasks[j].state ≠ COMPLETED`, or `none`. -/
def findNextIncomplete (tasks : List TaskState) (start : Nat) : Option Nat :=
  findNextIncompleteAux (tasks.drop start) start

/-- The `if (task.status !== "Done")` transition block of the
`AWAITING_CONFIRM` branch: look up the `Done` transition id, apply it, set
the local status to `Done`. Returns the completed Jira calls and either the
new local status or the propagated exception. -/
def doTransition (taskId : String) (status : String) (env : TurnEnv) :
    List JiraEffect × Except String String :=
  if status = "Done" then ([], .ok status)
  else
    match env.transitionIdResult with
    | .error e => ([], .error e)
    | .ok transitionId =>
      match env.updateTaskResult with
      | .error e => ([.getTransition taskId ("Done")], .error e)
      | .ok _ =>
        ([.getTransition taskId ("Done"), .updateStatus taskId transitionId],
         .ok ("Done"))

/-- The commit switch on `updateType` of the `AWAITING_CONFIRM` branch. -/
def commitJira (taskId status draft : String) (ut : UpdateType) (env : TurnEnv) :
    List JiraEffect × Except String String :=
  match ut with
  | .comment_only =>
    match env.addCommentResult with
    | .error e => ([], .error e)
    | .ok _ => ([.addComment taskId draft], .ok status)
  | .status_only => doTransition taskId status env
  | .comment_and_status =>
    match env.addCommentResult with
    | .error e => ([], .error e)
    | .ok _ =>
      let tr := doTransition taskId status env
      (.addComment taskId draft :: tr.1, tr.2)

/-- `const draft = (draftRaw || "").trim() || "Update noted."` of the
`AWAITING_UPDATE` branch. -/
def updateBranchDraft (draftRaw : String) : String :=
  if jsTrim draftRaw = "" then ("Update noted.") else jsTrim draftRaw

/-- The task mutations of the `AWAITING_UPDATE` branch: store the draft,
set `pendingStatusDone` when the message implies completion, move to
`AWAITING_EDIT_DECISION`. -/
def updateBranchTask (task : TaskState) (msg : String) (draftRaw : String) : TaskState :=
  { task with
    draftSummary := some (updateBranchDraft draftRaw)
    pendingStatusDone := if saidDone msg then true else task.pendingStatusDone
    state := .awaiting_edit_decision }

/-- `const updatedSummary = (updatedRaw || "").trim() || task.draftSummary!`
of the `AWAITING_EDIT_INPUT` branch. -/
def editInputSummary (task : TaskState) (updatedRaw : String) : Option String :=
  if jsTrim updatedRaw = "" then task.draftSummary else some (jsTrim updatedRaw)

/-- The task mutations of the `AWAITING_EDIT_INPUT` branch. -/
def editInputTask (task : TaskState) (updatedRaw : String) : TaskState :=
  { task with draftSummary := editInputSummary task updatedRaw, state := .awaiting_confirm }

/-- `if (task.pendingStatusDone && updateType === "comment_only")
updateType = "comment_and_status"` of the `AWAITING_CONFIRM` branch. -/
def upgradeUT (task : TaskState) (ut0 : UpdateType) : UpdateType :=
  if task.pendingStatusDone = true ∧ ut0 = UpdateType.comment_only
  then UpdateType.comment_and_status else ut0

/-- The Jira commit of the `AWAITING_CONFIRM` branch after the upgrade
check. -/
def confirmCommit (task : TaskState) (ut0 : UpdateType) (env : TurnEnv) :
    List JiraEffect × Except String String :=
  commitJira task.taskId task.status (jsString task.draftSummary) (upgradeUT task ut0) env

/-- Finalise the current task: `finalSummary = draftSummary`,
`state = COMPLETED`, with the possibly updated local status. -/
def confirmDoneTask (task : TaskState) (newStatus : String) : TaskState :=
  { task with
    status := newStatus
    finalSummary := task.draftSummary
    state := .completed }

/-- Replace the current task by its completed form. -/
def completeCurrent (s : AgentSession) (idx : Nat) (task : TaskState)
    (newStatus : String) : AgentSession :=
  setTask s idx (confirmDoneTask task newStatus)

/-- Advance to the found next actionable task and reset it to
`AWAITING_UPDATE`. -/
def advanceSession (s1 : AgentSession) (j : Nat) : AgentSession :=
  { s1 with currentIndex := (j : Int), tasks := setTaskState s1.tasks j .awaiting_update }

/-- Reply of the `AWAITING_UPDATE` branch. -/
def draftReply (draft : String) : String :=
  "Here\u0027s the summary I generated: \"" ++ draft ++
    "\"\nDo you want to update anything in it?"

/-- Reply of the affirmative `AWAITING_EDIT_DECISION` branch. -/
def editPromptReply : String :=
  "Okay, please tell me what changes you\u0027d like to make."

/-- Reply of the non-affirmative `AWAITING_EDIT_DECISION` branch. -/
def confirmPromptReply (d : Option String) : String :=
  "I\u0027m about to update the ticket with: \"" ++ jsString d ++ "\". Should I go ahead?"

/-- Reply of the `AWAITING_EDIT_INPUT` branch. -/
def updatedSummaryReply (d : Option String) : String :=
  "Here\u0027s the updated summary: \"" ++ jsString d ++
    "\"\nShould I go ahead and update Jira?"

/-- Reply of the non-affirmative `AWAITING_CONFIRM` branch. -/
def noCommitReply : String :=
  "Okay, I won\u0027t update it yet. What would you like to change?"

/-- Reply when the commit advanced to a next actionable task. -/
def advanceReply (title : String) : String :=
  "Ticket updated. Let\u0027s move to your next task: \"" ++ title ++ "\""

/-- Reply when the commit found no further actionable task. -/
def allDoneReply : String :=
  "Ticket updated. All tasks are done. Great job!"

/-- Reply of the `COMPLETED` (default) branch. -/
def allCompleteReply : String :=
  "All tasks are complete."

/-- The `switch (task.state)` body of `handleMessage`, acting on the current
task `task = s.tasks[idx]`. -/
def turnCore (s : AgentSession) (idx : Nat) (task : TaskState) (msg : String)
    (env : TurnEnv) : TurnOutcome :=
  match task.state with
  | .awaiting_update =>
    match generateSummary env.draftResp with
    | .error e => ⟨[], [], .error e⟩
    | .ok draftRaw =>
      let s1 := setTask s idx (updateBranchTask task msg draftRaw)
      ⟨[persistSession s1], [],
        .ok (draftReply (updateBranchDraft draftRaw), s1)⟩
  | .awaiting_edit_decision =>
    if isAffirmative msg then
      let s1 := setTask s idx { task with state := .awaiting_edit_input }
      ⟨[persistSession s1], [], .ok (editPromptReply, s1)⟩
    else
      let s1 := setTask s idx { task with state := .awaiting_confirm }
      ⟨[persistSession s1], [], .ok (confirmPromptReply task.draftSummary, s1)⟩
  | .awaiting_edit_input =>
    match applyEdits env.editResp with
    | .error e => ⟨[], [], .error e⟩
    | .ok updatedRaw =>
      let s1 := setTask s idx (editInputTask task updatedRaw)
      ⟨[persistSession s1], [],
        .ok (updatedSummaryReply (editInputSummary task updatedRaw), s1)⟩
  | .awaiting_confirm =>
    if !(isAffirmative msg) then
      ⟨[], [], .ok (noCommitReply, s)⟩
    else
      match analyzeUpdateType env.analyzeResp with
      | .error e => ⟨[], [], .error e⟩
      | .ok ut0 =>
        match (confirmCommit task ut0 env).2 with
        | .error e => ⟨[], (confirmCommit task ut0 env).1, .error e⟩
        | .ok newStatus =>
          let s1 := completeCurrent s idx task newStatus
          match findNextIncomplete s1.tasks (idx + 1) with
          | some j =>
            ⟨[persistSession (advanceSession s1 j)], (confirmCommit task ut0 env).1,
              .ok (advanceReply (titleAt (advanceSession s1 j).tasks j), advanceSession s1 j)⟩
          | none =>
            ⟨[persistSession s1], (confirmCommit task ut0 env).1, .ok (allDoneReply, s1)⟩
  | .completed =>
    ⟨[], [], .ok (allCompleteReply, s)⟩

/-- Fetch the current task and run the state switch; an out-of-range index
would make `session.tasks[currentIndex]` undefined and the `switch` on
`task.state` throw (unreachable after the guard). -/
def dispatch (s : AgentSession) (msg : String) (env : TurnEnv) : TurnOutcome :=
  match s.tasks.get? s.currentIndex.toNat with
  | none => ⟨[], [], .error ("TypeError: cannot read properties of undefined")⟩
  | some task => turnCore s s.currentIndex.toNat task msg env

/-- Prepend the index-drift guard save to a turn outcome. -/
def prependSave (snapshot : AgentSession) (o : TurnOutcome) : TurnOutcome :=
  { o with saved := snapshot :: o.saved }

/-- `handleMessage`: empty-task guard, index-drift guard (reset to 0 and
save), then the per-state switch. The session argument is the document
`findById` returned, i.e. the stored state. -/
def handleMessage (session : AgentSession) (msg : String) (env : TurnEnv) : TurnOutcome :=
  if session.tasks.length = 0 then
    ⟨[], [],
      .ok ("I couldn’t find any pending Jira tasks for you. If that seems wrong, try refreshing or reconnecting Jira.",
           session)⟩
  else if session.currentIndex < 0 ∨ (session.tasks.length : Int) ≤ session.currentIndex then
    let s := { session with currentIndex := 0 }
    prependSave (persistSession s) (dispatch s msg env)
  else
    dispatch session msg env

/-- Stored session after one turn: the last snapshot `session.save()` wrote,
or the unchanged stored state when the turn saved nothing. -/
def storeAfterTurn (s : AgentSession) (msg : String) (env : TurnEnv) : AgentSession :=
  ((handleMessage s msg env).saved).getLast?.getD s

/-- Stored session states reachable through the service entry points:
`startSession` creations and arbitrary `handleMessage` turns. -/
inductive ReachableSession : AgentSession → Prop where
  | start (userId : String) (issues : List JiraIssue) :
      ReachableSession (startSession userId issues)
  | step {s : AgentSession} (msg : String) (env : TurnEnv) :
      ReachableSession s → ReachableSession (storeAfterTurn s msg env)

/-! ## `AIService.processMessage` retry loop (`ai.types.ts`) -/

/-- Shape of the error `AIService.isRetryable` inspects: an HTTP response
status, a connection abort (`error.code === 'ECONNABORTED'`, no response
status), or any other thrown value. -/
inductive AxiosFailure where
  | httpStatus (status : Nat)
  | connAborted
  | other (msg : String)
deriving DecidableEq, Repr

/-- The status allowlist of `AIService.isRetryable`. -/
def retryableStatuses : List Nat := [408, 425, 429, 500, 502, 503, 504]

/-- `AIService.isRetryable`. -/
def isRetryable : AxiosFailure → Bool
  | .httpStatus st => retryableStatuses.contains st
  | .connAborted => true
  | .other _ => false

/-- Outcome of one upstream `aiEngineClient.processMessage` call inside the
retry loop: an HTTP-level response (success flag inside), or a throw. -/
inductive AttemptOutcome where
  | engineOk (resp : EngineResponse)
  | thrown (e : AxiosFailure)

/-- `private retryAttempts = 3` of `AIService`. -/
def retryAttempts : Nat := 3

/-- The delay `1000 * (attempt + 1)` slept after a retryable failure at the
given attempt index. -/
def backoffDelay (attempt : Nat) : Nat := 1000 * (attempt + 1)

/-- Observable outcome of the retry loop: upstream calls made, backoff
delays slept (in order), and the final engine response or thrown error. -/
structure RetryRun where
  calls : Nat
  delays : List Nat
  result : Except AxiosFailure EngineResponse
deriving DecidableEq, Repr

/-- The `for (attempt = 0; attempt < this.retryAttempts; attempt++)` loop of
`AIService.processMessage`: an engine response (success or not) returns
immediately; a thrown non-retryable error is rethrown at once; a thrown
retryable error sleeps `backoffDelay attempt` and continues; an exhausted
loop rethrows the last error. -/
def processAttempts (outcomes : Nat → AttemptOutcome) :
    Nat → Nat → Option AxiosFailure → RetryRun
  | 0, attempt, lastError =>
    ⟨attempt, [], .error (lastError.getD (.other ("null")))⟩
  | remaining + 1, attempt, lastError =>
    match outcomes attempt with
    | .engineOk r => ⟨attempt + 1, [], .ok r⟩
    | .thrown e =>
      if isRetryable e then
        let run := processAttempts outcomes remaining (attempt + 1) (some e)
        ⟨run.calls, backoffDelay attempt :: run.delays, run.result⟩
      else ⟨attempt + 1, [], .error e⟩

/-- Entry point of the retry loop: attempt index 0,
`retryAttempts - 0 = 3` loop iterations remaining, no last error. The
first argument of `processAttempts` counts the remaining iterations of the
source's `attempt < retryAttempts` loop condition, so that the recursion is
structural. -/
def processMessageRetry (outcomes : Nat → AttemptOutcome) : RetryRun :=
  processAttempts outcomes retryAttempts 0 none

/-! ## Specification-side definitions (stated from the spec text, for
comparison with the embedded code) -/

/-- Spec-side notion used by the claims about the phrase detectors: the
input contains the phrase `w` as a whole word, case-insensitively — some
case-normalised decomposition `pre ++ w ++ post` exists whose neighbouring
characters (when present) are not word characters. -/
def containsWholeWordSpec (w s : String) : Prop :=
  ∃ pre post : List Char,
    (jsToLower s).data = pre ++ ((jsToLower w).data ++ post) ∧
    pre.getLast?.all (fun c => !(isWordChar c)) = true ∧
    post.head?.all (fun c => !(isWordChar c)) = true

/-- A Jira call that mutates the ticket (a posted comment or an applied
status transition), as opposed to the read-only transition lookup. -/
def isMutation : JiraEffect → Bool
  | .addComment _ _ => true
  | .getTransition _ _ => false
  | .updateStatus _ _ => true

/-- Invariant: a task whose locally cached status is `Done` has already
been completed (sessions are created from `In Progress` issues only, and
the only assignment of `Done` is followed by `state := COMPLETED` in the
same turn). -/
def statusDoneInv (s : AgentSession) : Prop :=
  ∀ t ∈ s.tasks, t.status = "Done" → t.state = AgentTaskState.completed

/-- Invariant: a task in one of the three post-draft conversational states
carries a non-empty draft summary. -/
def draftInv (s : AgentSession) : Prop :=
  ∀ t ∈ s.tasks,
    (t.state = AgentTaskState.awaiting_edit_decision ∨
     t.state = AgentTaskState.awaiting_edit_input ∨
     t.state = AgentTaskState.awaiting_confirm) →
    ∃ d, t.draftSummary = some d ∧ d ≠ ""

/-! ## Concrete scenario fixtures (used by closed evaluation theorems) -/

/-- A single open Jira issue as returned by the pending-task search. -/
def scenarioIssue : JiraIssue :=
  { taskId := "MT-1", title := "Add Analytics events", status := "In Progress" }

/-- Oracle environment in which no external call is expected: every call
would throw. -/
def scenarioNullEnv : TurnEnv :=
  { draftResp := Except.error ("unused"), editResp := Except.error ("unused"),
    analyzeResp := Except.error ("unused"),
    addCommentResult := Except.error ("unused"),
    transitionIdResult := Except.error ("unused"),
    updateTaskResult := Except.error ("unused") }

/-- Environment for a drafting turn: the engine returns a summary. -/
def scenarioDraftEnv : TurnEnv :=
  { scenarioNullEnv with
    draftResp :=
      Except.ok ({ success := true, generated_content := some ("Added tracking events") }) }

/-- Environment for a confirmed commit: `analyze_update` classifies the
draft as `comment_only` and every Jira call succeeds (transition id 31). -/
def scenarioCommitEnv : TurnEnv :=
  { scenarioNullEnv with
    analyzeResp :=
      Except.ok ({ success := true, generated_content := some ("comment_only") })
    addCommentResult := Except.ok ()
    transitionIdResult := Except.ok ("31")
    updateTaskResult := Except.ok () }

/-- Environment for an edit turn whose engine output is whitespace only. -/
def scenarioEditWhitespaceEnv : TurnEnv :=
  { scenarioNullEnv with
    editResp := Except.ok ({ success := true, generated_content := some ("   ") }) }

/-- Stored session right after `startSession`. -/
def scenarioStart : AgentSession :=
  startSession ("u1") [scenarioIssue]

/-- Stored session after turn 1 (`AWAITING_UPDATE`, user says
"completed, added tracking", so the in-memory turn sets
`pendingStatusDone`). -/
def scenarioAfterUpdate : AgentSession :=
  storeAfterTurn scenarioStart ("completed, added tracking") scenarioDraftEnv

/-- Stored session after turn 2 (`AWAITING_EDIT_DECISION`, user declines
edits, task moves to `AWAITING_CONFIRM`). -/
def scenarioAtConfirm : AgentSession :=
  storeAfterTurn scenarioAfterUpdate ("no changes") scenarioNullEnv

/-- Stored session after an affirmative edit decision (task at
`AWAITING_EDIT_INPUT`). -/
def scenarioAtEditInput : AgentSession :=
  storeAfterTurn scenarioAfterUpdate ("yes") scenarioNullEnv

/-- A two-task session whose first task awaits confirmation. -/
def scenarioTwoTaskSession : AgentSession :=
  { userId := "u1", currentIndex := 0,
    tasks := [{ taskId := "T-1", title := "First task", status := "In Progress",
                draftSummary := some ("draft one"),
                state := AgentTaskState.awaiting_confirm },
              { taskId := "T-2", title := "Second task", status := "In Progress",
                state := AgentTaskState.awaiting_update }] }

/-- The in-memory session returned by committing the first task of
`scenarioTwoTaskSession`: task 1 completed, index advanced to task 2. -/
def scenarioTwoTaskAfter : AgentSession :=
  { userId := "u1", currentIndex := 1,
    tasks := [{ taskId := "T-1", title := "First task", status := "In Progress",
                draftSummary := some ("draft one"), finalSummary := some ("draft one"),
                state := AgentTaskState.completed },
              { taskId := "T-2", title := "Second task", status := "In Progress",
                state := AgentTaskState.awaiting_update }] }

/-! ## Helper lemmas: word-boundary scanner -/

/-- A match at the current scan position makes the scanner accept. -/
theorem containsWordAux_of_hasWordAt (w : List Char) (prev : Option Char)
    (s : List Char) (h : hasWordAt w prev s = true) :
    containsWordAux w prev s = true := by
  cases s with
  | nil => exact h
  | cons c rest => simp [containsWordAux, h]

/-- The anchored match succeeds on `w ++ post` under the two boundary
conditions. -/
theorem hasWordAt_append (w post : List Char) (prev : Option Char)
    (hprev : prev.all (fun c => !(isWordChar c)) = true)
    (hpost : post.head?.all (fun c => !(isWordChar c)) = true) :
    hasWordAt w prev (w ++ post) = true := by
  have h1 : w.isPrefixOf (w ++ post) = true :=
    List.isPrefixOf_iff_prefix.mpr (List.prefix_append w post)
  have h2 : (w ++ post).drop w.length = post := List.drop_left w post
  unfold hasWordAt
  rw [h1, h2]
  cases prev <;> cases post <;> simp_all [Option.all]

/-- The scanner accepts any string of the form `pre ++ w ++ post` whose
boundary characters around `w` are non-word characters. -/
theorem containsWordAux_append (w post : List Char)
    (hpost : post.head?.all (fun c => !(isWordChar c)) = true) :
    ∀ (pre : List Char) (prev : Option Char),
      pre.getLast?.all (fun c => !(isWordChar c)) = true →
      (pre = [] → prev.all (fun c => !(isWordChar c)) = true) →
      containsWordAux w prev (pre ++ (w ++ post)) = true := by
  intro pre
  induction pre with
  | nil =>
    intro prev _ hprev
    exact containsWordAux_of_hasWordAt w prev (w ++ post)
      (hasWordAt_append w post prev (hprev rfl) hpost)
  | cons c pre ih =>
    intro prev hlast _
    have step : containsWordAux w (some c) (pre ++ (w ++ post)) = true := by
      cases pre with
      | nil =>
        refine ih (some c) rfl ?_
        intro _
        simpa [Option.all] using hlast
      | cons c2 pre2 =>
        refine ih (some c) ?_ ?_
        · simpa [List.getLast?_cons_cons] using hlast
        · intro h; cases h
    show (hasWordAt w prev (c :: (pre ++ (w ++ post))) ||
      containsWordAux w (some c) (pre ++ (w ++ post))) = true
    simp [step]

/-- Spec-side whole-word containment implies the embedded regex test. -/
theorem containsWord_of_spec (w s : String) (h : containsWholeWordSpec w s) :
    containsWord w s = true := by
  obtain ⟨pre, post, hsplit, hlast, hhead⟩ := h
  unfold containsWord
  rw [hsplit]
  exact containsWordAux_append (jsToLower w).data post hhead pre none hlast (fun _ => rfl)

/-! ## Claim theorems -/

/-- Claim C9: the affirmative-phrase detector accepts every input that
contains one of yes/yep/yeah/y/ok/okay/sure/go ahead/confirm/proceed as a
whole word (case-insensitively), and the implies-completion detector
accepts every input that contains one of
done/completed/complete/finished/resolved/closed as a whole word: no
phrase of the documented sets is rejected. -/
theorem C9_phrase_sets_lossless (s w : String) :
    (w ∈ affirmativePhrases → containsWholeWordSpec w s → isAffirmative s = true) ∧
    (w ∈ donePhrases → containsWholeWordSpec w s → saidDone s = true) := by
  constructor
  · intro hw hc
    exact List.any_eq_true.mpr ⟨w, hw, containsWord_of_spec w s hc⟩
  · intro hw hc
    exact List.any_eq_true.mpr ⟨w, hw, containsWord_of_spec w s hc⟩

/-- Witness for C9 at concrete inputs: an affirmative detection through the
multi-word phrase `go ahead` and a completion detection through an
upper-case `FINISHED`. -/
theorem C9_phrase_sets_lossless_witness :
    isAffirmative ("Please go ahead!") = true ∧
    saidDone ("Task is FINISHED now") = true := by
  constructor
  · exact (C9_phrase_sets_lossless ("Please go ahead!") ("go ahead")).1 (by decide)
      ⟨("please ").data, ("!").data, by decide, by decide, by decide⟩
  · exact (C9_phrase_sets_lossless ("Task is FINISHED now") ("finished")).2 (by decide)
      ⟨("task is ").data, (" now").data, by decide, by decide, by decide⟩

/-- Claim C3, counterexample: when the engine call itself throws (e.g. an
axios timeout), `analyzeUpdateType` does not default to `comment_only` —
the source has no try/catch around `aiEngineClient.processMessage`, so the
error propagates and there is no result at all. -/
theorem C3_counterexample_thrown_error_propagates :
    analyzeUpdateType (Except.error ("ECONNABORTED: timeout of 15000ms exceeded")) ≠
      Except.ok UpdateType.comment_only := by
  decide

/-- Claim C3 (amended): every returned result is one of the three
enumerated update types; when the engine responds with `success:false`,
with falsy content, or with content outside the enumeration, the result is
`comment_only`; a thrown transport error propagates unchanged instead of
being defaulted. -/
theorem C3_amended_default_comment_only :
    (∀ e : String, analyzeUpdateType (Except.error e) = Except.error e) ∧
    (∀ r : EngineResponse,
        (r.success = false ∨ falsyStr r.generated_content = true ∨
          (normalizeContent r.generated_content ≠ "status_only" ∧
           normalizeContent r.generated_content ≠ "comment_only" ∧
           normalizeContent r.generated_content ≠ "comment_and_status")) →
        analyzeUpdateType (Except.ok r) = Except.ok UpdateType.comment_only) ∧
    (∀ (resp : Except String EngineResponse) (u : UpdateType),
        analyzeUpdateType resp = Except.ok u →
        u = UpdateType.status_only ∨ u = UpdateType.comment_only ∨
          u = UpdateType.comment_and_status) := by
  refine ⟨fun e => rfl, ?_, ?_⟩
  · intro r h
    unfold analyzeUpdateType
    rcases h with h | h | ⟨h1, h2, h3⟩
    · simp [h]
    · simp [h]
    · by_cases hb : (!r.success || falsyStr r.generated_content) = true
      · simp [hb]
      · simp only [hb, Bool.false_eq_true, if_false, if_neg h1, if_neg h2, if_neg h3]
  · intro resp u _h
    cases u
    · exact Or.inl rfl
    · exact Or.inr (Or.inl rfl)
    · exact Or.inr (Or.inr rfl)

/-- Witness for C3 (amended) at a concrete out-of-enum generation. -/
theorem C3_amended_default_comment_only_witness :
    analyzeUpdateType (Except.ok { success := true, generated_content := some ("do both please") }) =
      Except.ok UpdateType.comment_only :=
  C3_amended_default_comment_only.2.1 _ (Or.inr (Or.inr (by decide)))

/-! ## Helper lemmas: the retry loop -/

/-- Unfolding step: a retryable thrown error sleeps and recurses. -/
theorem processAttempts_retry (outcomes : Nat → AttemptOutcome)
    (remaining attempt : Nat) (lastError : Option AxiosFailure) (e : AxiosFailure)
    (h : outcomes attempt = AttemptOutcome.thrown e) (hr : isRetryable e = true) :
    processAttempts outcomes (remaining + 1) attempt lastError =
      ⟨(processAttempts outcomes remaining (attempt + 1) (some e)).calls,
       backoffDelay attempt :: (processAttempts outcomes remaining (attempt + 1) (some e)).delays,
       (processAttempts outcomes remaining (attempt + 1) (some e)).result⟩ := by
  simp [processAttempts, h, hr]

/-- Unfolding step: an engine-level response returns at once. -/
theorem processAttempts_return (outcomes : Nat → AttemptOutcome)
    (remaining attempt : Nat) (lastError : Option AxiosFailure) (r : EngineResponse)
    (h : outcomes attempt = AttemptOutcome.engineOk r) :
    processAttempts outcomes (remaining + 1) attempt lastError =
      ⟨attempt + 1, [], Except.ok r⟩ := by
  simp [processAttempts, h]

/-- Unfolding step: a non-retryable thrown error is rethrown at once. -/
theorem processAttempts_rethrow (outcomes : Nat → AttemptOutcome)
    (remaining attempt : Nat) (lastError : Option AxiosFailure) (e : AxiosFailure)
    (h : outcomes attempt = AttemptOutcome.thrown e) (hr : isRetryable e = false) :
    processAttempts outcomes (remaining + 1) attempt lastError =
      ⟨attempt + 1, [], Except.error e⟩ := by
  simp [processAttempts, h, hr]

/-- Claim C7, counterexample: with three consecutive retryable failures the
slept delays are 1000, 2000, 3000 ms — the backoff grows linearly as
`1000 * (attempt + 1)`, and at attempt index 2 it differs from the claimed
`base * 2 ^ attempt` (which would be 4000). -/
theorem C7_counterexample_backoff_not_exponential :
    (processMessageRetry (fun _ => AttemptOutcome.thrown (AxiosFailure.httpStatus 503))).delays =
      [backoffDelay 0, backoffDelay 1, backoffDelay 2] ∧
    backoffDelay 2 = 3000 ∧ 1000 * 2 ^ 2 ≠ 3000 := by
  decide

/-- Claim C7 (amended): retryable failures (allowlisted HTTP statuses,
including 429 rate-limit and 503 service-unavailable, and transport
timeouts) are retried within a loop of at most 3 total upstream attempts,
each retry preceded by a sleep of `backoffDelay attempt = 1000 * (attempt + 1)`
milliseconds (linear, not `base * 2 ^ attempt`); a non-retryable failure
(e.g. 401 unauthorized or 400 malformed request) is rethrown immediately
with no further attempt and no delay. -/
theorem C7_amended_linear_backoff_bounded_retry :
    (∀ attempt : Nat, backoffDelay attempt = 1000 * (attempt + 1)) ∧
    (∀ (outcomes : Nat → AttemptOutcome) (k : Nat) (r : EngineResponse),
        k < retryAttempts →
        (∀ b, b < k → ∃ e, outcomes b = AttemptOutcome.thrown e ∧ isRetryable e = true) →
        outcomes k = AttemptOutcome.engineOk r →
        processMessageRetry outcomes =
          ⟨k + 1, (List.range k).map backoffDelay, Except.ok r⟩) ∧
    (∀ (outcomes : Nat → AttemptOutcome) (k : Nat) (e : AxiosFailure),
        k < retryAttempts →
        (∀ b, b < k → ∃ e0, outcomes b = AttemptOutcome.thrown e0 ∧ isRetryable e0 = true) →
        outcomes k = AttemptOutcome.thrown e → isRetryable e = false →
        processMessageRetry outcomes =
          ⟨k + 1, (List.range k).map backoffDelay, Except.error e⟩) ∧
    (∀ (outcomes : Nat → AttemptOutcome) (e : AxiosFailure),
        (∀ b, b < retryAttempts → ∃ e0, outcomes b = AttemptOutcome.thrown e0 ∧ isRetryable e0 = true) →
        outcomes (retryAttempts - 1) = AttemptOutcome.thrown e →
        processMessageRetry outcomes =
          ⟨retryAttempts, (List.range retryAttempts).map backoffDelay, Except.error e⟩) := by
  refine ⟨fun _ => rfl, ?_, ?_, ?_⟩
  · intro outcomes k r hk hpre hout
    have hk3 : k < 3 := hk
    interval_cases k
    · rw [show processMessageRetry outcomes = processAttempts outcomes (2 + 1) 0 none from rfl,
        processAttempts_return outcomes 2 0 none r hout]
      simp
    · obtain ⟨e0, h0, hr0⟩ := hpre 0 (by omega)
      rw [show processMessageRetry outcomes = processAttempts outcomes (2 + 1) 0 none from rfl,
        processAttempts_retry outcomes 2 0 none e0 h0 hr0,
        processAttempts_return outcomes 1 1 (some e0) r hout]
      simp [List.range_succ]
    · obtain ⟨e0, h0, hr0⟩ := hpre 0 (by omega)
      obtain ⟨e1, h1, hr1⟩ := hpre 1 (by omega)
      rw [show processMessageRetry outcomes = processAttempts outcomes (2 + 1) 0 none from rfl,
        processAttempts_retry outcomes 2 0 none e0 h0 hr0,
        processAttempts_retry outcomes 1 1 (some e0) e1 h1 hr1,
        processAttempts_return outcomes 0 2 (some e1) r hout]
      simp [List.range_succ]
  · intro outcomes k e hk hpre hout hnr
    have hk3 : k < 3 := hk
    interval_cases k
    · rw [show processMessageRetry outcomes = processAttempts outcomes (2 + 1) 0 none from rfl,
        processAttempts_rethrow outcomes 2 0 none e hout hnr]
      simp
    · obtain ⟨e0, h0, hr0⟩ := hpre 0 (by omega)
      rw [show processMessageRetry outcomes = processAttempts outcomes (2 + 1) 0 none from rfl,
        processAttempts_retry outcomes 2 0 none e0 h0 hr0,
        processAttempts_rethrow outcomes 1 1 (some e0) e hout hnr]
      simp [List.range_succ]
    · obtain ⟨e0, h0, hr0⟩ := hpre 0 (by omega)
      obtain ⟨e1, h1, hr1⟩ := hpre 1 (by omega)
      rw [show processMessageRetry outcomes = processAttempts outcomes (2 + 1) 0 none from rfl,
        processAttempts_retry outcomes 2 0 none e0 h0 hr0,
        processAttempts_retry outcomes 1 1 (some e0) e1 h1 hr1,
        processAttempts_rethrow outcomes 0 2 (some e1) e hout hnr]
      simp [List.range_succ]
  · intro outcomes e hpre hout
    obtain ⟨e0, h0, hr0⟩ := hpre 0 (by decide)
    obtain ⟨e1, h1, hr1⟩ := hpre 1 (by decide)
    obtain ⟨e2, h2, hr2⟩ := hpre 2 (by decide)
    have he2 : e2 = e := by
      have : AttemptOutcome.thrown e2 = AttemptOutcome.thrown e := h2 ▸ hout
      cases this; rfl
    subst he2
    rw [show processMessageRetry outcomes = processAttempts outcomes (2 + 1) 0 none from rfl,
      processAttempts_retry outcomes 2 0 none e0 h0 hr0,
      processAttempts_retry outcomes 1 1 (some e0) e1 h1 hr1,
      processAttempts_retry outcomes 0 2 (some e1) e2 h2 hr2]
    simp [processAttempts, retryAttempts, List.range_succ]

/-- Witness for C7 (amended): a transport timeout on the first attempt is
retried once after a 1000 ms delay and then succeeds. -/
theorem C7_amended_linear_backoff_bounded_retry_witness :
    processMessageRetry
        (fun a => if a = 0 then AttemptOutcome.thrown AxiosFailure.connAborted
                  else AttemptOutcome.engineOk { success := true }) =
      ⟨2, [backoffDelay 0], Except.ok { success := true }⟩ := by
  have h := C7_amended_linear_backoff_bounded_retry.2.1
    (fun a => if a = 0 then AttemptOutcome.thrown AxiosFailure.connAborted
              else AttemptOutcome.engineOk { success := true })
    1 { success := true } (by decide)
    (fun b hb => by
      interval_cases b
      exact ⟨AxiosFailure.connAborted, rfl, rfl⟩)
    rfl
  simpa using h

/-! ## Helper lemmas: sessions, persistence, the advance loop -/

theorem persistSession_currentIndex (s : AgentSession) :
    (persistSession s).currentIndex = s.currentIndex := rfl

theorem persistSession_length (s : AgentSession) :
    (persistSession s).tasks.length = s.tasks.length := by
  simp [persistSession]

theorem setTask_currentIndex (s : AgentSession) (i : Nat) (t : TaskState) :
    (setTask s i t).currentIndex = s.currentIndex := rfl

theorem setTask_length (s : AgentSession) (i : Nat) (t : TaskState) :
    (setTask s i t).tasks.length = s.tasks.length := by
  simp [setTask]

theorem setTaskState_length (ts : List TaskState) (i : Nat) (st : AgentTaskState) :
    (setTaskState ts i st).length = ts.length := by
  unfold setTaskState
  split <;> simp

theorem setTask_get?_ne (s : AgentSession) (i : Nat) (t : TaskState) (j : Nat)
    (h : i ≠ j) : (setTask s i t).tasks.get? j = s.tasks.get? j := by
  simp [setTask, List.getElem?_set_ne h]

theorem setTask_get?_eq (s : AgentSession) (i : Nat) (t : TaskState)
    (h : i < s.tasks.length) : (setTask s i t).tasks.get? i = some t := by
  simp [setTask, List.getElem?_set_eq_of_lt t h]

theorem setTaskState_get?_ne (ts : List TaskState) (i : Nat) (st : AgentTaskState)
    (j : Nat) (h : i ≠ j) : (setTaskState ts i st).get? j = ts.get? j := by
  unfold setTaskState
  split
  · simp [List.get?_eq_getElem?, List.getElem?_set_ne h]
  · rfl

/-- `findNextIncompleteAux` characterisation, `some` case. -/
theorem findNextIncompleteAux_some (l : List TaskState) :
    ∀ (i j : Nat), findNextIncompleteAux l i = some j →
      i ≤ j ∧ j - i < l.length ∧
      (∃ t, l.get? (j - i) = some t ∧ t.state ≠ AgentTaskState.completed) ∧
      (∀ k t, k < j - i → l.get? k = some t → t.state = AgentTaskState.completed) := by
  induction l with
  | nil => intro i j h; cases h
  | cons t0 ts ih =>
    intro i j h
    unfold findNextIncompleteAux at h
    by_cases hc : t0.state = AgentTaskState.completed
    · rw [if_pos hc] at h
      obtain ⟨h1, h2, ⟨t, ht, hts⟩, h4⟩ := ih (i + 1) j h
      refine ⟨by omega, by simp; omega, ⟨t, ?_, hts⟩, ?_⟩
      · have : j - i = (j - (i + 1)) + 1 := by omega
        rw [this]
        simpa using ht
      · intro k t' hk ht'
        cases k with
        | zero => cases ht'; exact hc
        | succ k2 =>
          refine h4 k2 t' (by omega) ?_
          simpa using ht'
    · rw [if_neg hc] at h
      cases h
      refine ⟨Nat.le_refl _, by simp, ⟨t0, by simp, hc⟩, ?_⟩
      intro k t' hk ht'
      omega

/-- `findNextIncompleteAux` characterisation, `none` case. -/
theorem findNextIncompleteAux_none (l : List TaskState) :
    ∀ (i : Nat), findNextIncompleteAux l i = none ↔
      ∀ k t, l.get? k = some t → t.state = AgentTaskState.completed := by
  induction l with
  | nil => intro i; simp [findNextIncompleteAux]
  | cons t0 ts ih =>
    intro i
    unfold findNextIncompleteAux
    by_cases hc : t0.state = AgentTaskState.completed
    · rw [if_pos hc, ih (i + 1)]
      constructor
      · intro h k t' ht'
        cases k with
        | zero => cases ht'; exact hc
        | succ k2 => exact h k2 t' (by simpa using ht')
      · intro h k t' ht'
        exact h (k + 1) t' (by simpa using ht')
    · rw [if_neg hc]
      constructor
      · intro h; cases h
      · intro h
        exact absurd (h 0 t0 rfl) hc

/-- `findNextIncomplete` finds the least incomplete index at or after
`start`, within bounds. -/
theorem findNextIncomplete_some (tasks : List TaskState) (start j : Nat)
    (h : findNextIncomplete tasks start = some j) :
    start ≤ j ∧ j < tasks.length ∧
    (∃ t, tasks.get? j = some t ∧ t.state ≠ AgentTaskState.completed) ∧
    (∀ k t, start ≤ k → k < j → tasks.get? k = some t →
      t.state = AgentTaskState.completed) := by
  unfold findNextIncomplete at h
  obtain ⟨h1, h2, ⟨t, ht, hts⟩, h4⟩ := findNextIncompleteAux_some _ _ _ h
  rw [List.get?_drop] at ht
  rw [List.length_drop] at h2
  refine ⟨h1, by omega, ⟨t, ?_, hts⟩, ?_⟩
  · rw [show start + (j - start) = j by omega] at ht
    exact ht
  · intro k t' hk1 hk2 ht'
    refine h4 (k - start) t' (by omega) ?_
    rw [List.get?_drop, show start + (k - start) = k by omega]
    exact ht'

/-- `findNextIncomplete` returns `none` exactly when every task at or after
`start` is completed. -/
theorem findNextIncomplete_none (tasks : List TaskState) (start : Nat) :
    findNextIncomplete tasks start = none ↔
      ∀ k t, start ≤ k → tasks.get? k = some t →
        t.state = AgentTaskState.completed := by
  unfold findNextIncomplete
  rw [findNextIncompleteAux_none _ start]
  constructor
  · intro h k t hk ht
    refine h (k - start) t ?_
    rw [List.get?_drop, show start + (k - start) = k by omega]
    exact ht
  · intro h k t ht
    rw [List.get?_drop] at ht
    exact h (start + k) t (by omega) ht

/-- Claim C4: in `AWAITING_CONFIRM`, a non-affirmative message leaves the
turn with no save (no persisted field changes), no Jira call of any kind,
the same in-memory session, and the no-commit reply — for every oracle
environment. -/
theorem C4_nonaffirmative_confirm_is_noop
    (s : AgentSession) (msg : String) (env : TurnEnv) (task : TaskState)
    (hlen : ¬ s.tasks.length = 0)
    (hlo : 0 ≤ s.currentIndex) (hhi : s.currentIndex < (s.tasks.length : Int))
    (htask : s.tasks.get? s.currentIndex.toNat = some task)
    (hstate : task.state = AgentTaskState.awaiting_confirm)
    (hneg : isAffirmative msg = false) :
    handleMessage s msg env =
      ⟨[], [], Except.ok ("Okay, I won't update it yet. What would you like to change?", s)⟩ := by
  unfold handleMessage
  rw [if_neg hlen,
    if_neg (show ¬(s.currentIndex < 0 ∨ (s.tasks.length : Int) ≤ s.currentIndex) by omega)]
  unfold dispatch turnCore
  simp only [htask, hstate, hneg, Bool.not_false, if_true]
  rfl

/-- Witness for C4 at a concrete session and message. -/
theorem C4_nonaffirmative_confirm_is_noop_witness :
    handleMessage
        { userId := "u1", currentIndex := 0,
          tasks := [{ taskId := "T-1", title := "Fix bug", status := "In Progress",
                      draftSummary := some ("did the fix"),
                      state := AgentTaskState.awaiting_confirm }] }
        ("hmm, not yet")
        { draftResp := Except.error ("unused"), editResp := Except.error ("unused"),
          analyzeResp := Except.error ("unused"),
          addCommentResult := Except.error ("unused"),
          transitionIdResult := Except.error ("unused"),
          updateTaskResult := Except.error ("unused") } =
      ⟨[], [], Except.ok ("Okay, I won't update it yet. What would you like to change?",
        { userId := "u1", currentIndex := 0,
          tasks := [{ taskId := "T-1", title := "Fix bug", status := "In Progress",
                      draftSummary := some ("did the fix"),
                      state := AgentTaskState.awaiting_confirm }] })⟩ :=
  C4_nonaffirmative_confirm_is_noop _ _ _
    { taskId := "T-1", title := "Fix bug", status := "In Progress",
      draftSummary := some ("did the fix"),
      state := AgentTaskState.awaiting_confirm }
    (by decide) (by decide) (by decide) (by decide) (by decide) (by decide)

/-- Exhaustive characterisation of one `turnCore` run: exactly one of the
eleven control-flow leaves of the `switch (task.state)` applies, and the
outcome is the corresponding record. -/
theorem turnCore_cases (s : AgentSession) (idx : Nat) (task : TaskState)
    (msg : String) (env : TurnEnv) :
    (∃ e, task.state = AgentTaskState.awaiting_update ∧
       generateSummary env.draftResp = Except.error e ∧
       turnCore s idx task msg env = ⟨[], [], Except.error e⟩) ∨
    (∃ draftRaw, task.state = AgentTaskState.awaiting_update ∧
       generateSummary env.draftResp = Except.ok draftRaw ∧
       turnCore s idx task msg env =
         ⟨[persistSession (setTask s idx (updateBranchTask task msg draftRaw))], [],
          Except.ok (draftReply (updateBranchDraft draftRaw),
            setTask s idx (updateBranchTask task msg draftRaw))⟩) ∨
    (task.state = AgentTaskState.awaiting_edit_decision ∧ isAffirmative msg = true ∧
       turnCore s idx task msg env =
         ⟨[persistSession (setTask s idx { task with state := AgentTaskState.awaiting_edit_input })], [],
          Except.ok (editPromptReply,
            setTask s idx { task with state := AgentTaskState.awaiting_edit_input })⟩) ∨
    (task.state = AgentTaskState.awaiting_edit_decision ∧ isAffirmative msg = false ∧
       turnCore s idx task msg env =
         ⟨[persistSession (setTask s idx { task with state := AgentTaskState.awaiting_confirm })], [],
          Except.ok (confirmPromptReply task.draftSummary,
            setTask s idx { task with state := AgentTaskState.awaiting_confirm })⟩) ∨
    (∃ e, task.state = AgentTaskState.awaiting_edit_input ∧
       applyEdits env.editResp = Except.error e ∧
       turnCore s idx task msg env = ⟨[], [], Except.error e⟩) ∨
    (∃ updatedRaw, task.state = AgentTaskState.awaiting_edit_input ∧
       applyEdits env.editResp = Except.ok updatedRaw ∧
       turnCore s idx task msg env =
         ⟨[persistSession (setTask s idx (editInputTask task updatedRaw))], [],
          Except.ok (updatedSummaryReply (editInputSummary task updatedRaw),
            setTask s idx (editInputTask task updatedRaw))⟩) ∨
    (task.state = AgentTaskState.awaiting_confirm ∧ isAffirmative msg = false ∧
       turnCore s idx task msg env = ⟨[], [], Except.ok (noCommitReply, s)⟩) ∨
    (∃ e, task.state = AgentTaskState.awaiting_confirm ∧ isAffirmative msg = true ∧
       analyzeUpdateType env.analyzeResp = Except.error e ∧
       turnCore s idx task msg env = ⟨[], [], Except.error e⟩) ∨
    (∃ ut0 e, task.state = AgentTaskState.awaiting_confirm ∧ isAffirmative msg = true ∧
       analyzeUpdateType env.analyzeResp = Except.ok ut0 ∧
       (confirmCommit task ut0 env).2 = Except.error e ∧
       turnCore s idx task msg env =
         ⟨[], (confirmCommit task ut0 env).1, Except.error e⟩) ∨
    (∃ ut0 newStatus, task.state = AgentTaskState.awaiting_confirm ∧ isAffirmative msg = true ∧
       analyzeUpdateType env.analyzeResp = Except.ok ut0 ∧
       (confirmCommit task ut0 env).2 = Except.ok newStatus ∧
       ((∃ j, findNextIncomplete (completeCurrent s idx task newStatus).tasks (idx + 1) = some j ∧
           turnCore s idx task msg env =
             ⟨[persistSession (advanceSession (completeCurrent s idx task newStatus) j)],
              (confirmCommit task ut0 env).1,
              Except.ok (advanceReply (titleAt (advanceSession (completeCurrent s idx task newStatus) j).tasks j),
                advanceSession (completeCurrent s idx task newStatus) j)⟩) ∨
        (findNextIncomplete (completeCurrent s idx task newStatus).tasks (idx + 1) = none ∧
           turnCore s idx task msg env =
             ⟨[persistSession (completeCurrent s idx task newStatus)],
              (confirmCommit task ut0 env).1,
              Except.ok (allDoneReply, completeCurrent s idx task newStatus)⟩))) ∨
    (task.state = AgentTaskState.completed ∧
       turnCore s idx task msg env = ⟨[], [], Except.ok (allCompleteReply, s)⟩) := by
  cases hstate : task.state with
  | awaiting_update =>
    cases hg : generateSummary env.draftResp with
    | error e =>
      refine Or.inl ⟨e, rfl, rfl, ?_⟩
      simp only [turnCore, hstate, hg]
    | ok draftRaw =>
      refine Or.inr (Or.inl ⟨draftRaw, rfl, rfl, ?_⟩)
      simp only [turnCore, hstate, hg]
  | awaiting_edit_decision =>
    cases haff : isAffirmative msg with
    | true =>
      refine Or.inr (Or.inr (Or.inl ⟨rfl, rfl, ?_⟩))
      simp only [turnCore, hstate, haff, if_true]
    | false =>
      refine Or.inr (Or.inr (Or.inr (Or.inl ⟨rfl, rfl, ?_⟩)))
      simp only [turnCore, hstate, haff, Bool.false_eq_true, if_false]
  | awaiting_edit_input =>
    cases he : applyEdits env.editResp with
    | error e =>
      refine Or.inr (Or.inr (Or.inr (Or.inr (Or.inl ⟨e, rfl, rfl, ?_⟩))))
      simp only [turnCore, hstate, he]
    | ok updatedRaw =>
      refine Or.inr (Or.inr (Or.inr (Or.inr (Or.inr (Or.inl ⟨updatedRaw, rfl, rfl, ?_⟩)))))
      simp only [turnCore, hstate, he]
  | awaiting_confirm =>
    cases haff : isAffirmative msg with
    | false =>
      refine Or.inr (Or.inr (Or.inr (Or.inr (Or.inr (Or.inr (Or.inl ⟨rfl, rfl, ?_⟩))))))
      simp only [turnCore, hstate, haff, Bool.not_false, if_true]
    | true =>
      cases ha : analyzeUpdateType env.analyzeResp with
      | error e =>
        refine Or.inr (Or.inr (Or.inr (Or.inr (Or.inr (Or.inr (Or.inr (Or.inl ⟨e, rfl, rfl, rfl, ?_⟩)))))))
        simp only [turnCore, hstate, haff, Bool.not_true, Bool.false_eq_true, if_false, ha]
      | ok ut0 =>
        cases hc : (confirmCommit task ut0 env).2 with
        | error e =>
          refine Or.inr (Or.inr (Or.inr (Or.inr (Or.inr (Or.inr (Or.inr (Or.inr (Or.inl
            ⟨ut0, e, rfl, rfl, rfl, hc, ?_⟩))))))))
          simp only [turnCore, hstate, haff, Bool.not_true, Bool.false_eq_true, if_false, ha, hc]
        | ok newStatus =>
          cases hf : findNextIncomplete (completeCurrent s idx task newStatus).tasks (idx + 1) with
          | some j =>
            refine Or.inr (Or.inr (Or.inr (Or.inr (Or.inr (Or.inr (Or.inr (Or.inr (Or.inr (Or.inl
              ⟨ut0, newStatus, rfl, rfl, rfl, hc, Or.inl ⟨j, hf, ?_⟩⟩)))))))))
            simp only [turnCore, hstate, haff, Bool.not_true, Bool.false_eq_true, if_false, ha, hc, hf]
          | none =>
            refine Or.inr (Or.inr (Or.inr (Or.inr (Or.inr (Or.inr (Or.inr (Or.inr (Or.inr (Or.inl
              ⟨ut0, newStatus, rfl, rfl, rfl, hc, Or.inr ⟨hf, ?_⟩⟩)))))))))
            simp only [turnCore, hstate, haff, Bool.not_true, Bool.false_eq_true, if_false, ha, hc, hf]
  | completed =>
    refine Or.inr (Or.inr (Or.inr (Or.inr (Or.inr (Or.inr (Or.inr (Or.inr (Or.inr (Or.inr
      ⟨rfl, ?_⟩)))))))))
    simp only [turnCore, hstate]

theorem advanceSession_currentIndex (s1 : AgentSession) (j : Nat) :
    (advanceSession s1 j).currentIndex = (j : Int) := rfl

theorem advanceSession_length (s1 : AgentSession) (j : Nat) :
    (advanceSession s1 j).tasks.length = s1.tasks.length := by
  simp [advanceSession, setTaskState_length]

theorem completeCurrent_length (s : AgentSession) (idx : Nat) (task : TaskState)
    (ns : String) : (completeCurrent s idx task ns).tasks.length = s.tasks.length := by
  simp [completeCurrent, setTask_length]

/-- `dispatch` reduces to `turnCore` on the current task when the index
reads in bounds. -/
theorem dispatch_eq (s : AgentSession) (msg : String) (env : TurnEnv) (task : TaskState)
    (h : s.tasks.get? s.currentIndex.toNat = some task) :
    dispatch s msg env = turnCore s s.currentIndex.toNat task msg env := by
  unfold dispatch
  rw [h]

/-- Guard-level characterisation of `handleMessage`: the empty-task early
return, the index-drift reset (guard save prepended), or the in-range
dispatch to `turnCore`. -/
theorem handleMessage_eq (s : AgentSession) (msg : String) (env : TurnEnv) :
    (s.tasks.length = 0 ∧
       handleMessage s msg env =
         ⟨[], [], Except.ok ("I couldn’t find any pending Jira tasks for you. If that seems wrong, try refreshing or reconnecting Jira.", s)⟩) ∨
    (s.tasks.length ≠ 0 ∧
       (s.currentIndex < 0 ∨ (s.tasks.length : Int) ≤ s.currentIndex) ∧
       ∃ task, s.tasks.get? 0 = some task ∧
         handleMessage s msg env =
           prependSave (persistSession { s with currentIndex := 0 })
             (turnCore { s with currentIndex := 0 } 0 task msg env)) ∨
    (s.tasks.length ≠ 0 ∧
       0 ≤ s.currentIndex ∧ s.currentIndex < (s.tasks.length : Int) ∧
       ∃ task, s.tasks.get? s.currentIndex.toNat = some task ∧
         handleMessage s msg env = turnCore s s.currentIndex.toNat task msg env) := by
  by_cases h0 : s.tasks.length = 0
  · refine Or.inl ⟨h0, ?_⟩
    unfold handleMessage
    rw [if_pos h0]
  · by_cases hdrift : s.currentIndex < 0 ∨ (s.tasks.length : Int) ≤ s.currentIndex
    · refine Or.inr (Or.inl ⟨h0, hdrift, ?_⟩)
      have hlt : 0 < s.tasks.length := Nat.pos_of_ne_zero h0
      obtain ⟨task, htask⟩ : ∃ task, s.tasks.get? 0 = some task :=
        ⟨s.tasks.get ⟨0, hlt⟩, List.get?_eq_get hlt⟩
      refine ⟨task, htask, ?_⟩
      unfold handleMessage
      rw [if_neg h0, if_pos hdrift]
      show prependSave (persistSession { s with currentIndex := 0 })
          (dispatch { s with currentIndex := 0 } msg env) = _
      rw [dispatch_eq { s with currentIndex := 0 } msg env task htask]
      rfl
    · refine Or.inr (Or.inr ⟨h0, by omega, by omega, ?_⟩)
      have hlt : s.currentIndex.toNat < s.tasks.length := by omega
      obtain ⟨task, htask⟩ : ∃ task, s.tasks.get? s.currentIndex.toNat = some task :=
        ⟨s.tasks.get ⟨s.currentIndex.toNat, hlt⟩, List.get?_eq_get hlt⟩
      refine ⟨task, htask, ?_⟩
      unfold handleMessage
      rw [if_neg h0, if_neg hdrift]
      exact dispatch_eq s msg env task htask

/-- Every snapshot a `turnCore` run saves is the persistence projection of
a session with the same task-list length whose index is either unchanged
or the in-bounds index produced by the advance loop. -/
theorem saved_mem_turnCore (s : AgentSession) (idx : Nat) (task : TaskState)
    (msg : String) (env : TurnEnv) (σ : AgentSession)
    (hσ : σ ∈ (turnCore s idx task msg env).saved) :
    ∃ s1, σ = persistSession s1 ∧ s1.tasks.length = s.tasks.length ∧
      (s1.currentIndex = s.currentIndex ∨
       ∃ j : Nat, s1.currentIndex = (j : Int) ∧ j < s.tasks.length) := by
  rcases turnCore_cases s idx task msg env with
    ⟨e, _, _, heq⟩ | ⟨draftRaw, _, _, heq⟩ | ⟨_, _, heq⟩ | ⟨_, _, heq⟩ |
    ⟨e, _, _, heq⟩ | ⟨updatedRaw, _, _, heq⟩ | ⟨_, _, heq⟩ | ⟨e, _, _, _, heq⟩ |
    ⟨ut0, e, _, _, _, _, heq⟩ | ⟨ut0, newStatus, _, _, _, _, ⟨j, hf, heq⟩ | ⟨hf, heq⟩⟩ |
    ⟨_, heq⟩
  all_goals rw [heq] at hσ
  · exact absurd hσ (List.not_mem_nil σ)
  · rw [List.mem_singleton] at hσ
    exact ⟨_, hσ, by simp [setTask_length], Or.inl rfl⟩
  · rw [List.mem_singleton] at hσ
    exact ⟨_, hσ, by simp [setTask_length], Or.inl rfl⟩
  · rw [List.mem_singleton] at hσ
    exact ⟨_, hσ, by simp [setTask_length], Or.inl rfl⟩
  · exact absurd hσ (List.not_mem_nil σ)
  · rw [List.mem_singleton] at hσ
    exact ⟨_, hσ, by simp [setTask_length], Or.inl rfl⟩
  · exact absurd hσ (List.not_mem_nil σ)
  · exact absurd hσ (List.not_mem_nil σ)
  · exact absurd hσ (List.not_mem_nil σ)
  · rw [List.mem_singleton] at hσ
    refine ⟨_, hσ, ?_, Or.inr ⟨j, rfl, ?_⟩⟩
    · rw [advanceSession_length, completeCurrent_length]
    · have hspec := findNextIncomplete_some _ _ _ hf
      have hlen := completeCurrent_length s idx task newStatus
      omega
  · rw [List.mem_singleton] at hσ
    exact ⟨_, hσ, by rw [completeCurrent_length], Or.inl rfl⟩
  · exact absurd hσ (List.not_mem_nil σ)

/-- Claim C8: for an empty task list `handleMessage` returns the
explanatory reply with no save, no Jira call and the session unchanged;
for an out-of-range `currentIndex` it saves the session with the index
reset to 0 and proceeds on that session, whose current task is then read
in bounds (index 0). -/
theorem C8_empty_and_drift_guards (s : AgentSession) (msg : String) (env : TurnEnv) :
    (s.tasks = [] →
       handleMessage s msg env =
         ⟨[], [], Except.ok ("I couldn’t find any pending Jira tasks for you. If that seems wrong, try refreshing or reconnecting Jira.", s)⟩) ∧
    (s.tasks ≠ [] →
       (s.currentIndex < 0 ∨ (s.tasks.length : Int) ≤ s.currentIndex) →
       ∃ task, s.tasks.get? 0 = some task ∧
         handleMessage s msg env =
           prependSave (persistSession { s with currentIndex := 0 })
             (turnCore { s with currentIndex := 0 } 0 task msg env)) := by
  constructor
  · intro h
    rcases handleMessage_eq s msg env with ⟨_, heq⟩ | ⟨h0, _, _⟩ | ⟨h0, _, _, _⟩
    · exact heq
    · exact absurd (by simp [h]) h0
    · exact absurd (by simp [h]) h0
  · intro hne hdrift
    rcases handleMessage_eq s msg env with ⟨h0, _⟩ | ⟨_, _, task, htask, heq⟩ | ⟨_, hlo, hhi, _, _⟩
    · exact absurd (List.length_eq_zero.mp h0) hne
    · exact ⟨task, htask, heq⟩
    · omega

/-- Witness for C8: an out-of-range index (7 on a 1-task list) is reset to
0, the guard save is written, and the turn proceeds on task 0. -/
theorem C8_empty_and_drift_guards_witness :
    ∃ task,
      (AgentSession.mk ("u1") 7
        [{ taskId := "T-1", title := "Fix bug", status := "In Progress",
           state := AgentTaskState.completed }]).tasks.get? 0 = some task ∧
      handleMessage
        (AgentSession.mk ("u1") 7
          [{ taskId := "T-1", title := "Fix bug", status := "In Progress",
             state := AgentTaskState.completed }])
        ("hello")
        { draftResp := Except.error ("unused"), editResp := Except.error ("unused"),
          analyzeResp := Except.error ("unused"),
          addCommentResult := Except.error ("unused"),
          transitionIdResult := Except.error ("unused"),
          updateTaskResult := Except.error ("unused") } =
        prependSave
          (persistSession
            { AgentSession.mk ("u1") 7
                [{ taskId := "T-1", title := "Fix bug", status := "In Progress",
                   state := AgentTaskState.completed }] with currentIndex := 0 })
          (turnCore
            { AgentSession.mk ("u1") 7
                [{ taskId := "T-1", title := "Fix bug", status := "In Progress",
                   state := AgentTaskState.completed }] with currentIndex := 0 }
            0 task
            ("hello")
            { draftResp := Except.error ("unused"), editResp := Except.error ("unused"),
              analyzeResp := Except.error ("unused"),
              addCommentResult := Except.error ("unused"),
              transitionIdResult := Except.error ("unused"),
              updateTaskResult := Except.error ("unused") }) :=
  (C8_empty_and_drift_guards
    (AgentSession.mk ("u1") 7
      [{ taskId := "T-1", title := "Fix bug", status := "In Progress",
         state := AgentTaskState.completed }])
    ("hello")
    { draftResp := Except.error ("unused"), editResp := Except.error ("unused"),
      analyzeResp := Except.error ("unused"),
      addCommentResult := Except.error ("unused"),
      transitionIdResult := Except.error ("unused"),
      updateTaskResult := Except.error ("unused") }).2 (by decide) (by decide)

/-- Claim C5: `0 <= currentIndex < len(tasks)` holds for every session with
a non-empty task list after every persisting operation: `startSession`
establishes it and every snapshot `handleMessage` saves (guard reset,
per-state saves, advance-on-completion) satisfies it. -/
theorem C5_currentIndex_invariant :
    (∀ (userId : String) (issues : List JiraIssue),
       (startSession userId issues).tasks ≠ [] →
       0 ≤ (startSession userId issues).currentIndex ∧
       (startSession userId issues).currentIndex <
         ((startSession userId issues).tasks.length : Int)) ∧
    (∀ (s : AgentSession) (msg : String) (env : TurnEnv) (σ : AgentSession),
       σ ∈ (handleMessage s msg env).saved →
       σ.tasks ≠ [] →
       0 ≤ σ.currentIndex ∧ σ.currentIndex < (σ.tasks.length : Int)) := by
  constructor
  · intro userId issues h
    have h1 : (startSession userId issues).currentIndex = 0 := rfl
    have h2 : 0 < (startSession userId issues).tasks.length := List.length_pos.mpr h
    rw [h1]
    omega
  · intro s msg env σ hσ _
    rcases handleMessage_eq s msg env with ⟨_, heq⟩ | ⟨h0, _, task, _, heq⟩ | ⟨h0, hlo, hhi, task, _, heq⟩
    · rw [heq] at hσ
      exact absurd hσ (List.not_mem_nil σ)
    · rw [heq] at hσ
      simp only [prependSave, List.mem_cons] at hσ
      rcases hσ with hσ | hσ
      · subst hσ
        have hl : (persistSession { s with currentIndex := 0 } : AgentSession).tasks.length
            = s.tasks.length := persistSession_length _
        have hc : (persistSession { s with currentIndex := 0 } : AgentSession).currentIndex
            = 0 := rfl
        rw [hc, hl]
        omega
      · obtain ⟨s1, hps, hlen, hidx⟩ := saved_mem_turnCore _ _ _ _ _ _ hσ
        subst hps
        have hl : (persistSession s1).tasks.length = s1.tasks.length := persistSession_length _
        have hc : (persistSession s1).currentIndex = s1.currentIndex := rfl
        have hst : ({ s with currentIndex := 0 } : AgentSession).tasks = s.tasks := rfl
        rw [hst] at hlen hidx
        rcases hidx with hidx | ⟨j, hidx, hj⟩
        · have hz : s1.currentIndex = 0 := hidx
          rw [hc, hl, hz]
          omega
        · rw [hc, hl, hidx]
          omega
    · rw [heq] at hσ
      obtain ⟨s1, hps, hlen, hidx⟩ := saved_mem_turnCore _ _ _ _ _ _ hσ
      subst hps
      have hl : (persistSession s1).tasks.length = s1.tasks.length := persistSession_length _
      have hc : (persistSession s1).currentIndex = s1.currentIndex := rfl
      rcases hidx with hidx | ⟨j, hidx, hj⟩
      · rw [hc, hl, hidx]
        omega
      · rw [hc, hl, hidx]
        omega

/-- Witness for C5 at a concrete persisting turn (the non-affirmative
edit-decision save). -/
theorem C5_currentIndex_invariant_witness :
    0 ≤ (persistSession
          (setTask
            (AgentSession.mk ("u1") 0
              [{ taskId := "T-1", title := "Fix bug", status := "In Progress",
                 draftSummary := some ("d"),
                 state := AgentTaskState.awaiting_edit_decision }])
            0
            { taskId := "T-1", title := "Fix bug", status := "In Progress",
              draftSummary := some ("d"),
              state := AgentTaskState.awaiting_confirm })).currentIndex ∧
    (persistSession
          (setTask
            (AgentSession.mk ("u1") 0
              [{ taskId := "T-1", title := "Fix bug", status := "In Progress",
                 draftSummary := some ("d"),
                 state := AgentTaskState.awaiting_edit_decision }])
            0
            { taskId := "T-1", title := "Fix bug", status := "In Progress",
              draftSummary := some ("d"),
              state := AgentTaskState.awaiting_confirm })).currentIndex <
      ((persistSession
          (setTask
            (AgentSession.mk ("u1") 0
              [{ taskId := "T-1", title := "Fix bug", status := "In Progress",
                 draftSummary := some ("d"),
                 state := AgentTaskState.awaiting_edit_decision }])
            0
            { taskId := "T-1", title := "Fix bug", status := "In Progress",
              draftSummary := some ("d"),
              state := AgentTaskState.awaiting_confirm })).tasks.length : Int) :=
  C5_currentIndex_invariant.2
    (AgentSession.mk ("u1") 0
      [{ taskId := "T-1", title := "Fix bug", status := "In Progress",
         draftSummary := some ("d"),
         state := AgentTaskState.awaiting_edit_decision }])
    ("no")
    { draftResp := Except.error ("unused"), editResp := Except.error ("unused"),
      analyzeResp := Except.error ("unused"),
      addCommentResult := Except.error ("unused"),
      transitionIdResult := Except.error ("unused"),
      updateTaskResult := Except.error ("unused") }
    (persistSession
      (setTask
        (AgentSession.mk ("u1") 0
          [{ taskId := "T-1", title := "Fix bug", status := "In Progress",
             draftSummary := some ("d"),
             state := AgentTaskState.awaiting_edit_decision }])
        0
        { taskId := "T-1", title := "Fix bug", status := "In Progress",
          draftSummary := some ("d"),
          state := AgentTaskState.awaiting_confirm }))
    (by decide) (by decide)


/-! ## Helper lemmas: invariant preservation -/

theorem persistTask_status (t : TaskState) : (persistTask t).status = t.status := rfl

theorem persistTask_state (t : TaskState) : (persistTask t).state = t.state := rfl

theorem persistTask_draftSummary (t : TaskState) :
    (persistTask t).draftSummary = t.draftSummary := rfl

theorem mem_persistSession (s1 : AgentSession) (t : TaskState)
    (h : t ∈ (persistSession s1).tasks) :
    ∃ t0 ∈ s1.tasks, t = persistTask t0 := by
  simp only [persistSession, List.mem_map] at h
  obtain ⟨t0, ht0, rfl⟩ := h
  exact ⟨t0, ht0, rfl⟩

theorem mem_setTask (s : AgentSession) (idx : Nat) (t1 t : TaskState)
    (h : t ∈ (setTask s idx t1).tasks) : t ∈ s.tasks ∨ t = t1 :=
  List.mem_or_eq_of_mem_set h

theorem mem_setTaskState (ts : List TaskState) (j : Nat) (st : AgentTaskState)
    (t : TaskState) (h : t ∈ setTaskState ts j st) :
    t ∈ ts ∨ ∃ tj, ts.get? j = some tj ∧ t = { tj with state := st } := by
  unfold setTaskState at h
  split at h
  case h_1 tj hj =>
    rcases List.mem_or_eq_of_mem_set h with h | h
    · exact Or.inl h
    · exact Or.inr ⟨tj, hj, h⟩
  case h_2 => exact Or.inl h

theorem setTaskState_get?_eq (ts : List TaskState) (j : Nat) (st : AgentTaskState)
    (tj : TaskState) (h : ts.get? j = some tj) :
    (setTaskState ts j st).get? j = some { tj with state := st } := by
  obtain ⟨hlt, _⟩ := List.get?_eq_some.mp h
  unfold setTaskState
  rw [h]
  rw [List.get?_eq_getElem?, List.getElem?_set_eq_of_lt _ hlt]

theorem updateBranchDraft_ne_empty (draftRaw : String) :
    updateBranchDraft draftRaw ≠ "" := by
  unfold updateBranchDraft
  split
  · decide
  · assumption

theorem persistSession_get? (s1 : AgentSession) (j : Nat) :
    (persistSession s1).tasks.get? j = (s1.tasks.get? j).map persistTask := by
  simp [persistSession, List.get?_map]

theorem prependSave_effects (σ0 : AgentSession) (o : TurnOutcome) :
    (prependSave σ0 o).effects = o.effects := rfl

theorem prependSave_result (σ0 : AgentSession) (o : TurnOutcome) :
    (prependSave σ0 o).result = o.result := rfl

/-- `statusDoneInv` holds of every snapshot a `turnCore` run saves. -/
theorem turnCore_saved_statusDoneInv (s : AgentSession) (idx : Nat) (task : TaskState)
    (msg : String) (env : TurnEnv) (σ : AgentSession)
    (htask : s.tasks.get? idx = some task)
    (hs : statusDoneInv s)
    (hσ : σ ∈ (turnCore s idx task msg env).saved) : statusDoneInv σ := by
  have htmem : task ∈ s.tasks := List.get?_mem htask
  rcases turnCore_cases s idx task msg env with
    ⟨e, hst, _, heq⟩ | ⟨draftRaw, hst, _, heq⟩ | ⟨hst, _, heq⟩ | ⟨hst, _, heq⟩ |
    ⟨e, hst, _, heq⟩ | ⟨updatedRaw, hst, _, heq⟩ | ⟨hst, _, heq⟩ | ⟨e, hst, _, _, heq⟩ |
    ⟨ut0, e, hst, _, _, _, heq⟩ | ⟨ut0, newStatus, hst, _, _, _, ⟨j, hf, heq⟩ | ⟨hf, heq⟩⟩ |
    ⟨hst, heq⟩
  all_goals rw [heq] at hσ
  · exact absurd hσ (List.not_mem_nil σ)
  · -- AWAITING_UPDATE save
    rw [List.mem_singleton] at hσ
    subst hσ
    intro t ht hD
    obtain ⟨t0, ht0, rfl⟩ := mem_persistSession _ _ ht
    rw [persistTask_status] at hD
    rw [persistTask_state]
    rcases mem_setTask _ _ _ _ ht0 with h | h
    · exact hs t0 h hD
    · subst h
      exfalso
      have : task.state = AgentTaskState.completed := hs task htmem hD
      rw [hst] at this
      cases this
  · -- AWAITING_EDIT_DECISION affirmative save
    rw [List.mem_singleton] at hσ
    subst hσ
    intro t ht hD
    obtain ⟨t0, ht0, rfl⟩ := mem_persistSession _ _ ht
    rw [persistTask_status] at hD
    rw [persistTask_state]
    rcases mem_setTask _ _ _ _ ht0 with h | h
    · exact hs t0 h hD
    · subst h
      exfalso
      have : task.state = AgentTaskState.completed := hs task htmem hD
      rw [hst] at this
      cases this
  · -- AWAITING_EDIT_DECISION non-affirmative save
    rw [List.mem_singleton] at hσ
    subst hσ
    intro t ht hD
    obtain ⟨t0, ht0, rfl⟩ := mem_persistSession _ _ ht
    rw [persistTask_status] at hD
    rw [persistTask_state]
    rcases mem_setTask _ _ _ _ ht0 with h | h
    · exact hs t0 h hD
    · subst h
      exfalso
      have : task.state = AgentTaskState.completed := hs task htmem hD
      rw [hst] at this
      cases this
  · exact absurd hσ (List.not_mem_nil σ)
  · -- AWAITING_EDIT_INPUT save
    rw [List.mem_singleton] at hσ
    subst hσ
    intro t ht hD
    obtain ⟨t0, ht0, rfl⟩ := mem_persistSession _ _ ht
    rw [persistTask_status] at hD
    rw [persistTask_state]
    rcases mem_setTask _ _ _ _ ht0 with h | h
    · exact hs t0 h hD
    · subst h
      exfalso
      have : task.state = AgentTaskState.completed := hs task htmem hD
      rw [hst] at this
      cases this
  · exact absurd hσ (List.not_mem_nil σ)
  · exact absurd hσ (List.not_mem_nil σ)
  · exact absurd hσ (List.not_mem_nil σ)
  · -- AWAITING_CONFIRM advance save
    rw [List.mem_singleton] at hσ
    subst hσ
    intro t ht hD
    obtain ⟨t0, ht0, rfl⟩ := mem_persistSession _ _ ht
    rw [persistTask_status] at hD
    rw [persistTask_state]
    have hspec := findNextIncomplete_some _ _ _ hf
    rcases mem_setTaskState _ _ _ _ ht0 with h | ⟨tj, hj, h⟩
    · rcases mem_setTask _ _ _ _ h with h2 | h2
      · exact hs t0 h2 hD
      · subst h2
        rfl
    · subst h
      exfalso
      obtain ⟨_, _, ⟨tj2, hj2, hj2ne⟩, _⟩ := hspec
      rw [hj] at hj2
      cases hj2
      have hjne : idx ≠ j := by omega
      have : (completeCurrent s idx task newStatus).tasks.get? j = s.tasks.get? j := by
        unfold completeCurrent
        exact setTask_get?_ne s idx _ j hjne
      rw [this] at hj
      have : tj.state = AgentTaskState.completed := hs tj (List.get?_mem hj) hD
      exact hj2ne this
  · -- AWAITING_CONFIRM all-done save
    rw [List.mem_singleton] at hσ
    subst hσ
    intro t ht hD
    obtain ⟨t0, ht0, rfl⟩ := mem_persistSession _ _ ht
    rw [persistTask_status] at hD
    rw [persistTask_state]
    rcases mem_setTask _ _ _ _ ht0 with h | h
    · exact hs t0 h hD
    · subst h
      rfl
  · exact absurd hσ (List.not_mem_nil σ)

/-- `statusDoneInv` holds of every snapshot a `handleMessage` turn saves. -/
theorem saved_statusDoneInv (s : AgentSession) (msg : String) (env : TurnEnv)
    (σ : AgentSession) (hs : statusDoneInv s)
    (hσ : σ ∈ (handleMessage s msg env).saved) : statusDoneInv σ := by
  rcases handleMessage_eq s msg env with ⟨_, heq⟩ | ⟨h0, _, task, htask, heq⟩ |
    ⟨h0, hlo, hhi, task, htask, heq⟩
  · rw [heq] at hσ
    exact absurd hσ (List.not_mem_nil σ)
  · rw [heq] at hσ
    simp only [prependSave, List.mem_cons] at hσ
    have hs0 : statusDoneInv ({ s with currentIndex := 0 } : AgentSession) := hs
    rcases hσ with hσ | hσ
    · subst hσ
      intro t ht hD
      obtain ⟨t0, ht0, rfl⟩ := mem_persistSession _ _ ht
      rw [persistTask_status] at hD
      rw [persistTask_state]
      exact hs0 t0 ht0 hD
    · exact turnCore_saved_statusDoneInv { s with currentIndex := 0 } 0 task msg env σ htask hs0 hσ
  · rw [heq] at hσ
    exact turnCore_saved_statusDoneInv _ _ task msg env σ htask hs hσ

/-- Every reachable stored session satisfies `statusDoneInv`: sessions are
created from `In Progress` issues, and the only assignment of local status
`Done` completes the task in the same turn. -/
theorem reachable_statusDoneInv (s : AgentSession) (h : ReachableSession s) :
    statusDoneInv s := by
  induction h with
  | start userId issues =>
    intro t ht hD
    exfalso
    simp only [startSession, getPendingTasks, List.mem_map, List.mem_filter] at ht
    obtain ⟨i, ⟨_, hstat⟩, rfl⟩ := ht
    simp only at hD
    rw [hD] at hstat
    cases hstat
  | step msg env hr ih =>
    unfold storeAfterTurn
    cases hl : (handleMessage _ msg env).saved.getLast? with
    | none => simpa using ih
    | some σ =>
      have hmem : σ ∈ (handleMessage _ msg env).saved := List.mem_of_mem_getLast? hl
      simpa using saved_statusDoneInv _ msg env σ ih hmem

/-- `draftInv` holds of every snapshot a `turnCore` run saves. -/
theorem turnCore_saved_draftInv (s : AgentSession) (idx : Nat) (task : TaskState)
    (msg : String) (env : TurnEnv) (σ : AgentSession)
    (htask : s.tasks.get? idx = some task)
    (hs : draftInv s)
    (hσ : σ ∈ (turnCore s idx task msg env).saved) : draftInv σ := by
  have htmem : task ∈ s.tasks := List.get?_mem htask
  rcases turnCore_cases s idx task msg env with
    ⟨e, hst, _, heq⟩ | ⟨draftRaw, hst, _, heq⟩ | ⟨hst, _, heq⟩ | ⟨hst, _, heq⟩ |
    ⟨e, hst, _, heq⟩ | ⟨updatedRaw, hst, hap, heq⟩ | ⟨hst, _, heq⟩ | ⟨e, hst, _, _, heq⟩ |
    ⟨ut0, e, hst, _, _, _, heq⟩ | ⟨ut0, newStatus, hst, _, _, _, ⟨j, hf, heq⟩ | ⟨hf, heq⟩⟩ |
    ⟨hst, heq⟩
  all_goals rw [heq] at hσ
  · exact absurd hσ (List.not_mem_nil σ)
  · -- AWAITING_UPDATE save: the new draft is non-empty by construction
    rw [List.mem_singleton] at hσ
    subst hσ
    intro t ht htr
    obtain ⟨t0, ht0, rfl⟩ := mem_persistSession _ _ ht
    rw [persistTask_state] at htr
    rw [persistTask_draftSummary]
    rcases mem_setTask _ _ _ _ ht0 with h | h
    · exact hs t0 h htr
    · subst h
      exact ⟨updateBranchDraft draftRaw, rfl, updateBranchDraft_ne_empty draftRaw⟩
  · -- AWAITING_EDIT_DECISION affirmative: draft unchanged, was set before
    rw [List.mem_singleton] at hσ
    subst hσ
    intro t ht htr
    obtain ⟨t0, ht0, rfl⟩ := mem_persistSession _ _ ht
    rw [persistTask_state] at htr
    rw [persistTask_draftSummary]
    rcases mem_setTask _ _ _ _ ht0 with h | h
    · exact hs t0 h htr
    · subst h
      exact hs task htmem (Or.inl hst)
  · -- AWAITING_EDIT_DECISION non-affirmative
    rw [List.mem_singleton] at hσ
    subst hσ
    intro t ht htr
    obtain ⟨t0, ht0, rfl⟩ := mem_persistSession _ _ ht
    rw [persistTask_state] at htr
    rw [persistTask_draftSummary]
    rcases mem_setTask _ _ _ _ ht0 with h | h
    · exact hs t0 h htr
    · subst h
      exact hs task htmem (Or.inl hst)
  · exact absurd hσ (List.not_mem_nil σ)
  · -- AWAITING_EDIT_INPUT save: new draft non-empty or the previous one
    rw [List.mem_singleton] at hσ
    subst hσ
    intro t ht htr
    obtain ⟨t0, ht0, rfl⟩ := mem_persistSession _ _ ht
    rw [persistTask_state] at htr
    rw [persistTask_draftSummary]
    rcases mem_setTask _ _ _ _ ht0 with h | h
    · exact hs t0 h htr
    · subst h
      show ∃ d, editInputSummary task updatedRaw = some d ∧ d ≠ ""
      unfold editInputSummary
      split
      · exact hs task htmem (Or.inr (Or.inl hst))
      · next hne => exact ⟨jsTrim updatedRaw, rfl, hne⟩
  · exact absurd hσ (List.not_mem_nil σ)
  · exact absurd hσ (List.not_mem_nil σ)
  · exact absurd hσ (List.not_mem_nil σ)
  · -- AWAITING_CONFIRM advance save
    rw [List.mem_singleton] at hσ
    subst hσ
    intro t ht htr
    obtain ⟨t0, ht0, rfl⟩ := mem_persistSession _ _ ht
    rw [persistTask_state] at htr
    rw [persistTask_draftSummary]
    rcases mem_setTaskState _ _ _ _ ht0 with h | ⟨tj, hj, h⟩
    · rcases mem_setTask _ _ _ _ h with h2 | h2
      · exact hs t0 h2 htr
      · subst h2
        rcases htr with htr | htr | htr <;> cases htr
    · subst h
      rcases htr with htr | htr | htr <;> cases htr
  · -- AWAITING_CONFIRM all-done save
    rw [List.mem_singleton] at hσ
    subst hσ
    intro t ht htr
    obtain ⟨t0, ht0, rfl⟩ := mem_persistSession _ _ ht
    rw [persistTask_state] at htr
    rw [persistTask_draftSummary]
    rcases mem_setTask _ _ _ _ ht0 with h | h
    · exact hs t0 h htr
    · subst h
      rcases htr with htr | htr | htr <;> cases htr
  · exact absurd hσ (List.not_mem_nil σ)

/-- `draftInv` holds of every snapshot a `handleMessage` turn saves. -/
theorem saved_draftInv (s : AgentSession) (msg : String) (env : TurnEnv)
    (σ : AgentSession) (hs : draftInv s)
    (hσ : σ ∈ (handleMessage s msg env).saved) : draftInv σ := by
  rcases handleMessage_eq s msg env with ⟨_, heq⟩ | ⟨h0, _, task, htask, heq⟩ |
    ⟨h0, hlo, hhi, task, htask, heq⟩
  · rw [heq] at hσ
    exact absurd hσ (List.not_mem_nil σ)
  · rw [heq] at hσ
    simp only [prependSave, List.mem_cons] at hσ
    have hs0 : draftInv ({ s with currentIndex := 0 } : AgentSession) := hs
    rcases hσ with hσ | hσ
    · subst hσ
      intro t ht htr
      obtain ⟨t0, ht0, rfl⟩ := mem_persistSession _ _ ht
      rw [persistTask_state] at htr
      rw [persistTask_draftSummary]
      exact hs0 t0 ht0 htr
    · exact turnCore_saved_draftInv { s with currentIndex := 0 } 0 task msg env σ htask hs0 hσ
  · rw [heq] at hσ
    exact turnCore_saved_draftInv _ _ task msg env σ htask hs hσ

/-- Every reachable stored session satisfies `draftInv`: tasks enter the
post-draft states only through the branches that store a non-empty draft. -/
theorem reachable_draftInv (s : AgentSession) (h : ReachableSession s) :
    draftInv s := by
  induction h with
  | start userId issues =>
    intro t ht htr
    exfalso
    simp only [startSession, getPendingTasks, List.mem_map, List.mem_filter] at ht
    obtain ⟨i, _, rfl⟩ := ht
    rcases htr with htr | htr | htr <;> cases htr
  | step msg env hr ih =>
    unfold storeAfterTurn
    cases hl : (handleMessage _ msg env).saved.getLast? with
    | none => simpa using ih
    | some σ =>
      have hmem : σ ∈ (handleMessage _ msg env).saved := List.mem_of_mem_getLast? hl
      simpa using saved_draftInv _ msg env σ ih hmem

/-- A successful `confirmCommit` on a task whose local status is not `Done`
always performed at least one mutating Jira call. -/
theorem confirmCommit_ok_mutation (task : TaskState) (ut0 : UpdateType)
    (env : TurnEnv) (ns : String)
    (hstatus : task.status ≠ "Done")
    (hok : (confirmCommit task ut0 env).2 = Except.ok ns) :
    ∃ e ∈ (confirmCommit task ut0 env).1, isMutation e = true := by
  cases hu : upgradeUT task ut0 with
  | comment_only =>
    cases hac : env.addCommentResult with
    | error e =>
      exfalso
      simp only [confirmCommit, commitJira, hu, hac] at hok
      cases hok
    | ok u =>
      simp only [confirmCommit, commitJira, hu, hac]
      exact ⟨.addComment task.taskId (jsString task.draftSummary), by simp, rfl⟩
  | status_only =>
    simp only [confirmCommit, commitJira, hu, doTransition, if_neg hstatus] at hok ⊢
    cases htr : env.transitionIdResult with
    | error e =>
      exfalso
      simp only [htr] at hok
      cases hok
    | ok tid =>
      simp only [htr] at hok ⊢
      cases hup : env.updateTaskResult with
      | error e =>
        exfalso
        simp only [hup] at hok
        cases hok
      | ok u =>
        simp only [hup] at hok ⊢
        exact ⟨.updateStatus task.taskId tid, by simp, rfl⟩
  | comment_and_status =>
    cases hac : env.addCommentResult with
    | error e =>
      exfalso
      simp only [confirmCommit, commitJira, hu, hac] at hok
      cases hok
    | ok u =>
      simp only [confirmCommit, commitJira, hu, hac]
      exact ⟨.addComment task.taskId (jsString task.draftSummary), by simp, rfl⟩

/-- If a `turnCore` run saves a snapshot in which some task is newly
`COMPLETED`, then (given `statusDoneInv`) the run's effect log contains a
mutating Jira call that completed without error. -/
theorem turnCore_new_completed_mutation (s : AgentSession) (idx : Nat)
    (task : TaskState) (msg : String) (env : TurnEnv) (σ : AgentSession)
    (j : Nat) (t t' : TaskState)
    (htask : s.tasks.get? idx = some task)
    (hs : statusDoneInv s)
    (hσ : σ ∈ (turnCore s idx task msg env).saved)
    (ht : s.tasks.get? j = some t) (ht' : σ.tasks.get? j = some t')
    (hnot : t.state ≠ AgentTaskState.completed)
    (hcomp : t'.state = AgentTaskState.completed) :
    ∃ e ∈ (turnCore s idx task msg env).effects, isMutation e = true := by
  have htmem : task ∈ s.tasks := List.get?_mem htask
  rcases turnCore_cases s idx task msg env with
    ⟨e, hst, _, heq⟩ | ⟨draftRaw, hst, _, heq⟩ | ⟨hst, _, heq⟩ | ⟨hst, _, heq⟩ |
    ⟨e, hst, _, heq⟩ | ⟨updatedRaw, hst, _, heq⟩ | ⟨hst, _, heq⟩ | ⟨e, hst, _, _, heq⟩ |
    ⟨ut0, e, hst, _, _, hc, heq⟩ | ⟨ut0, newStatus, hst, _, _, hc, ⟨jn, hf, heq⟩ | ⟨hf, heq⟩⟩ |
    ⟨hst, heq⟩
  all_goals rw [heq] at hσ
  all_goals rw [heq]
  · exact absurd hσ (List.not_mem_nil σ)
  · -- AWAITING_UPDATE save cannot newly complete a task
    exfalso
    rw [List.mem_singleton] at hσ
    subst hσ
    rw [persistSession_get?] at ht'
    by_cases hij : idx = j
    · subst hij
      rw [setTask_get?_eq s idx _ (List.get?_eq_some.mp htask).1] at ht'
      cases ht'
      cases hcomp
    · rw [setTask_get?_ne s idx _ j hij, ht] at ht'
      cases ht'
      exact hnot hcomp
  · exfalso
    rw [List.mem_singleton] at hσ
    subst hσ
    rw [persistSession_get?] at ht'
    by_cases hij : idx = j
    · subst hij
      rw [setTask_get?_eq s idx _ (List.get?_eq_some.mp htask).1] at ht'
      cases ht'
      cases hcomp
    · rw [setTask_get?_ne s idx _ j hij, ht] at ht'
      cases ht'
      exact hnot hcomp
  · exfalso
    rw [List.mem_singleton] at hσ
    subst hσ
    rw [persistSession_get?] at ht'
    by_cases hij : idx = j
    · subst hij
      rw [setTask_get?_eq s idx _ (List.get?_eq_some.mp htask).1] at ht'
      cases ht'
      cases hcomp
    · rw [setTask_get?_ne s idx _ j hij, ht] at ht'
      cases ht'
      exact hnot hcomp
  · exact absurd hσ (List.not_mem_nil σ)
  · exfalso
    rw [List.mem_singleton] at hσ
    subst hσ
    rw [persistSession_get?] at ht'
    by_cases hij : idx = j
    · subst hij
      rw [setTask_get?_eq s idx _ (List.get?_eq_some.mp htask).1] at ht'
      cases ht'
      cases hcomp
    · rw [setTask_get?_ne s idx _ j hij, ht] at ht'
      cases ht'
      exact hnot hcomp
  · exact absurd hσ (List.not_mem_nil σ)
  · exact absurd hσ (List.not_mem_nil σ)
  · exact absurd hσ (List.not_mem_nil σ)
  · -- advance save: the commit succeeded, so a mutation completed
    have hD : task.status ≠ "Done" := by
      intro hd
      have := hs task htmem hd
      rw [hst] at this
      cases this
    exact confirmCommit_ok_mutation task ut0 env newStatus hD hc
  · have hD : task.status ≠ "Done" := by
      intro hd
      have := hs task htmem hd
      rw [hst] at this
      cases this
    exact confirmCommit_ok_mutation task ut0 env newStatus hD hc
  · exact absurd hσ (List.not_mem_nil σ)

/-- Claim C2: in every reachable session state, `handleMessage` persists a
newly `COMPLETED` task only when, in that same turn, at least one
ticket-API mutation (a comment post or a status transition) completed
without error. -/
theorem C2_completed_only_after_commit (s : AgentSession) (msg : String)
    (env : TurnEnv) (σ : AgentSession) (j : Nat) (t t' : TaskState)
    (hr : ReachableSession s)
    (hσ : σ ∈ (handleMessage s msg env).saved)
    (ht : s.tasks.get? j = some t) (ht' : σ.tasks.get? j = some t')
    (hnot : t.state ≠ AgentTaskState.completed)
    (hcomp : t'.state = AgentTaskState.completed) :
    ∃ e ∈ (handleMessage s msg env).effects, isMutation e = true := by
  have hs := reachable_statusDoneInv s hr
  rcases handleMessage_eq s msg env with ⟨_, heq⟩ | ⟨h0, _, task, htask, heq⟩ |
    ⟨h0, hlo, hhi, task, htask, heq⟩
  · rw [heq] at hσ
    exact absurd hσ (List.not_mem_nil σ)
  · rw [heq] at hσ ⊢
    rw [prependSave_effects]
    simp only [prependSave, List.mem_cons] at hσ
    rcases hσ with hσ | hσ
    · exfalso
      subst hσ
      rw [persistSession_get?] at ht'
      have hts : ({ s with currentIndex := 0 } : AgentSession).tasks = s.tasks := rfl
      rw [hts, ht] at ht'
      cases ht'
      exact hnot hcomp
    · exact turnCore_new_completed_mutation { s with currentIndex := 0 } 0 task msg env σ
        j t t' htask hs hσ ht ht' hnot hcomp
  · rw [heq] at hσ ⊢
    exact turnCore_new_completed_mutation s s.currentIndex.toNat task msg env σ
      j t t' htask hs hσ ht ht' hnot hcomp

/-- Claim C10: after every `handleMessage` turn that processes the current
task in `AWAITING_UPDATE` or `AWAITING_EDIT_INPUT` (in a reachable
session), the task's `draftSummary` is a non-empty string; empty or
whitespace-only generation output is replaced by `"Update noted."` in
`AWAITING_UPDATE` and by the previous `draftSummary` in
`AWAITING_EDIT_INPUT`. -/
theorem C10_draft_nonempty_after_turn (s : AgentSession) (msg : String)
    (env : TurnEnv) (task : TaskState) (reply : String) (s' : AgentSession)
    (hr : ReachableSession s)
    (hlo : 0 ≤ s.currentIndex) (hhi : s.currentIndex < (s.tasks.length : Int))
    (htask : s.tasks.get? s.currentIndex.toNat = some task)
    (hst2 : task.state = AgentTaskState.awaiting_update ∨
            task.state = AgentTaskState.awaiting_edit_input)
    (hres : (handleMessage s msg env).result = Except.ok (reply, s')) :
    (∃ task' d, s'.tasks.get? s.currentIndex.toNat = some task' ∧
       task'.draftSummary = some d ∧ d ≠ "") ∧
    (∀ draftRaw, task.state = AgentTaskState.awaiting_update →
       generateSummary env.draftResp = Except.ok draftRaw → jsTrim draftRaw = "" →
       ∃ task', s'.tasks.get? s.currentIndex.toNat = some task' ∧
         task'.draftSummary = some ("Update noted.")) ∧
    (∀ updatedRaw, task.state = AgentTaskState.awaiting_edit_input →
       applyEdits env.editResp = Except.ok updatedRaw → jsTrim updatedRaw = "" →
       ∃ task', s'.tasks.get? s.currentIndex.toNat = some task' ∧
         task'.draftSummary = task.draftSummary) := by
  have hidx : s.currentIndex.toNat < s.tasks.length := (List.get?_eq_some.mp htask).1
  rcases handleMessage_eq s msg env with ⟨h0, _⟩ | ⟨_, hdr, _⟩ | ⟨_, _, _, task2, htask2, heq⟩
  · omega
  · omega
  · rw [htask] at htask2
    have hteq := Option.some.inj htask2
    subst hteq
    rw [heq] at hres
    rcases turnCore_cases s s.currentIndex.toNat task msg env with
      ⟨e, hst, hg, heqT⟩ | ⟨draftRaw, hst, hg, heqT⟩ | ⟨hst, _, heqT⟩ | ⟨hst, _, heqT⟩ |
      ⟨e, hst, hap, heqT⟩ | ⟨updatedRaw, hst, hap, heqT⟩ | ⟨hst, _, heqT⟩ |
      ⟨e, hst, _, _, heqT⟩ | ⟨ut0, e, hst, _, _, _, heqT⟩ |
      ⟨ut0, newStatus, hst, _, _, _, ⟨j, hf, heqT⟩ | ⟨hf, heqT⟩⟩ | ⟨hst, heqT⟩
    all_goals rw [heqT] at hres
    · cases hres
    · -- AWAITING_UPDATE success
      cases hres
      refine ⟨⟨updateBranchTask task msg draftRaw, updateBranchDraft draftRaw,
        setTask_get?_eq s _ _ hidx, rfl, updateBranchDraft_ne_empty draftRaw⟩, ?_, ?_⟩
      · intro draftRaw2 _ hg2 htrim
        rw [hg] at hg2
        have := Except.ok.inj hg2
        subst this
        refine ⟨updateBranchTask task msg draftRaw, setTask_get?_eq s _ _ hidx, ?_⟩
        show some (updateBranchDraft draftRaw) = some ("Update noted.")
        rw [updateBranchDraft, if_pos htrim]
      · intro updatedRaw hst3 _ _
        rw [hst] at hst3
        cases hst3
    · rcases hst2 with h | h <;> (rw [hst] at h; cases h)
    · rcases hst2 with h | h <;> (rw [hst] at h; cases h)
    · cases hres
    · -- AWAITING_EDIT_INPUT success
      cases hres
      have hdi := reachable_draftInv s hr
      refine ⟨?_, ?_, ?_⟩
      · refine ⟨editInputTask task updatedRaw, ?_⟩
        by_cases htr : jsTrim updatedRaw = ""
        · obtain ⟨d, hd, hdne⟩ :=
            hdi task (List.get?_mem htask) (Or.inr (Or.inl hst))
          refine ⟨d, setTask_get?_eq s _ _ hidx, ?_, hdne⟩
          show editInputSummary task updatedRaw = some d
          rw [editInputSummary, if_pos htr]
          exact hd
        · refine ⟨jsTrim updatedRaw, setTask_get?_eq s _ _ hidx, ?_, htr⟩
          show editInputSummary task updatedRaw = some (jsTrim updatedRaw)
          rw [editInputSummary, if_neg htr]
      · intro draftRaw hst3 _ _
        rw [hst] at hst3
        cases hst3
      · intro updatedRaw2 _ hap2 htrim
        rw [hap] at hap2
        have := Except.ok.inj hap2
        subst this
        refine ⟨editInputTask task updatedRaw, setTask_get?_eq s _ _ hidx, ?_⟩
        show editInputSummary task updatedRaw = task.draftSummary
        rw [editInputSummary, if_pos htrim]
    · rcases hst2 with h | h <;> (rw [hst] at h; cases h)
    · cases hres
    · cases hres
    · rcases hst2 with h | h <;> (rw [hst] at h; cases h)
    · rcases hst2 with h | h <;> (rw [hst] at h; cases h)
    · rcases hst2 with h | h <;> (rw [hst] at h; cases h)

theorem completeCurrent_get?_ne (s : AgentSession) (idx : Nat) (task : TaskState)
    (ns : String) (k : Nat) (h : idx ≠ k) :
    (completeCurrent s idx task ns).tasks.get? k = s.tasks.get? k := by
  unfold completeCurrent
  exact setTask_get?_ne s idx _ k h

theorem completeCurrent_get?_eq (s : AgentSession) (idx : Nat) (task : TaskState)
    (ns : String) (h : idx < s.tasks.length) :
    (completeCurrent s idx task ns).tasks.get? idx = some (confirmDoneTask task ns) := by
  unfold completeCurrent
  exact setTask_get?_eq s idx _ h

/-- Claim C6: after a confirmed commit at `AWAITING_CONFIRM`, the current
task is persisted as `COMPLETED`; `currentIndex` advances to the first
later non-`COMPLETED` task when one exists and that task is reset to
`AWAITING_UPDATE`; when every later task is `COMPLETED`, `currentIndex` is
unchanged and the reply states that all tasks are done. -/
theorem C6_advance_after_commit (s : AgentSession) (msg : String) (env : TurnEnv)
    (task : TaskState) (reply : String) (s' : AgentSession)
    (hlo : 0 ≤ s.currentIndex) (hhi : s.currentIndex < (s.tasks.length : Int))
    (htask : s.tasks.get? s.currentIndex.toNat = some task)
    (hst : task.state = AgentTaskState.awaiting_confirm)
    (haff : isAffirmative msg = true)
    (hres : (handleMessage s msg env).result = Except.ok (reply, s')) :
    (∃ t', s'.tasks.get? s.currentIndex.toNat = some t' ∧
       t'.state = AgentTaskState.completed) ∧
    (∀ j tj, s.currentIndex.toNat < j → s.tasks.get? j = some tj →
       tj.state ≠ AgentTaskState.completed →
       ∃ j0 tj0, s.currentIndex.toNat < j0 ∧ s.tasks.get? j0 = some tj0 ∧
         tj0.state ≠ AgentTaskState.completed ∧
         (∀ k tk, s.currentIndex.toNat < k → k < j0 → s.tasks.get? k = some tk →
            tk.state = AgentTaskState.completed) ∧
         s'.currentIndex = (j0 : Int) ∧
         (∃ tj0', s'.tasks.get? j0 = some tj0' ∧
            tj0'.state = AgentTaskState.awaiting_update)) ∧
    ((∀ j tj, s.currentIndex.toNat < j → s.tasks.get? j = some tj →
        tj.state = AgentTaskState.completed) →
       s'.currentIndex = s.currentIndex ∧ reply = allDoneReply) := by
  have hidx : s.currentIndex.toNat < s.tasks.length := (List.get?_eq_some.mp htask).1
  rcases handleMessage_eq s msg env with ⟨h0, _⟩ | ⟨_, hdr, _⟩ | ⟨_, _, _, task2, htask2, heq⟩
  · omega
  · omega
  · rw [htask] at htask2
    have hteq := Option.some.inj htask2
    subst hteq
    rw [heq] at hres
    rcases turnCore_cases s s.currentIndex.toNat task msg env with
      ⟨e, hstF, _, heqT⟩ | ⟨draftRaw, hstF, _, heqT⟩ | ⟨hstF, _, heqT⟩ | ⟨hstF, _, heqT⟩ |
      ⟨e, hstF, _, heqT⟩ | ⟨updatedRaw, hstF, _, heqT⟩ | ⟨hstF, haffF, heqT⟩ |
      ⟨e, hstF, _, _, heqT⟩ | ⟨ut0, e, hstF, _, _, _, heqT⟩ |
      ⟨ut0, newStatus, hstF, _, _, _, ⟨j, hf, heqT⟩ | ⟨hf, heqT⟩⟩ | ⟨hstF, heqT⟩
    all_goals rw [heqT] at hres
    · rw [hst] at hstF; cases hstF
    · rw [hst] at hstF; cases hstF
    · rw [hst] at hstF; cases hstF
    · rw [hst] at hstF; cases hstF
    · rw [hst] at hstF; cases hstF
    · rw [hst] at hstF; cases hstF
    · rw [haff] at haffF; cases haffF
    · cases hres
    · cases hres
    · -- advance case
      cases hres
      obtain ⟨hj1, hj2, ⟨tn, htn, htnne⟩, hmin⟩ := findNextIncomplete_some _ _ _ hf
      have hjne : s.currentIndex.toNat ≠ j := by omega
      have htns : s.tasks.get? j = some tn := by
        rw [← completeCurrent_get?_ne s _ task newStatus j hjne]
        exact htn
      refine ⟨?_, ?_, ?_⟩
      · refine ⟨confirmDoneTask task newStatus, ?_, rfl⟩
        show (advanceSession (completeCurrent s _ task newStatus) j).tasks.get? _ = _
        unfold advanceSession
        rw [setTaskState_get?_ne _ j _ _ (by omega)]
        exact completeCurrent_get?_eq s _ task newStatus hidx
      · intro j2 tj2 hj2' htj2 hne2
        refine ⟨j, tn, by omega, htns, htnne, ?_, advanceSession_currentIndex _ _, ?_⟩
        · intro k tk hk1 hk2 htk
          have hkne : s.currentIndex.toNat ≠ k := by omega
          refine hmin k tk (by omega) hk2 ?_
          rw [completeCurrent_get?_ne s _ task newStatus k hkne]
          exact htk
        · refine ⟨{ tn with state := AgentTaskState.awaiting_update }, ?_, rfl⟩
          show (advanceSession (completeCurrent s _ task newStatus) j).tasks.get? j = _
          unfold advanceSession
          exact setTaskState_get?_eq _ j _ tn htn
      · intro hall
        exfalso
        exact htnne (hall j tn (by omega) htns)
    · -- all-done case
      cases hres
      have hnone := (findNextIncomplete_none _ _).mp hf
      refine ⟨?_, ?_, ?_⟩
      · exact ⟨confirmDoneTask task newStatus, completeCurrent_get?_eq s _ task newStatus hidx, rfl⟩
      · intro j2 tj2 hj2' htj2 hne2
        exfalso
        have hkne : s.currentIndex.toNat ≠ j2 := by omega
        refine hne2 (hnone j2 tj2 (by omega) ?_)
        rw [completeCurrent_get?_ne s _ task newStatus j2 hkne]
        exact htj2
      · intro _
        exact ⟨rfl, rfl⟩
    · rw [hst] at hstF; cases hstF

/-- Claim C1 (code bug): `pendingStatusDone` is declared in the TypeScript
interface `ITaskState`, set by the `AWAITING_UPDATE` branch and read by the
`AWAITING_CONFIRM` branch ("If user implied completion earlier, force
status update too"), but the Mongoose `TaskStateSchema` has no
`pendingStatusDone` path, so `session.save()` drops it and a later turn
reloads it as falsy. Running the documented scenario (turn 1:
"completed, added tracking"; turn 2: "no changes"; turn 3: "yes" with
`analyze_update` yielding `comment_only` and all Jira calls succeeding)
shows: the flag is true in memory after turn 1, false in the store, and
the turn-3 commit posts only a comment — no status transition — whereas
with a persisted flag the very same turn would also transition the ticket. -/
theorem C1_pendingStatusDone_lost_across_turns :
    saidDone ("completed, added tracking") = true ∧
    ((handleMessage scenarioStart ("completed, added tracking") scenarioDraftEnv).result.toOption.map
        (fun p => p.2.tasks.map (fun t => t.pendingStatusDone))) = some [true] ∧
    scenarioAfterUpdate.tasks.map (fun t => t.pendingStatusDone) = [false] ∧
    (handleMessage scenarioAtConfirm ("yes") scenarioCommitEnv).effects =
      [JiraEffect.addComment ("MT-1") ("Added tracking events")] ∧
    (handleMessage
        { scenarioAtConfirm with
          tasks := scenarioAtConfirm.tasks.map (fun t => { t with pendingStatusDone := true }) }
        ("yes") scenarioCommitEnv).effects =
      [JiraEffect.addComment ("MT-1") ("Added tracking events"),
       JiraEffect.getTransition ("MT-1") ("Done"),
       JiraEffect.updateStatus ("MT-1") ("31")] := by
  refine ⟨by decide, by decide, by decide, by decide, by decide⟩

/-- Witness for C2: the documented confirm turn on a reachable session
persists the task as `COMPLETED` and its effect log contains the completed
comment post. -/
theorem C2_completed_only_after_commit_witness :
    ∃ e ∈ (handleMessage scenarioAtConfirm ("yes") scenarioCommitEnv).effects,
      isMutation e = true := by
  refine C2_completed_only_after_commit scenarioAtConfirm ("yes") scenarioCommitEnv
    { userId := "u1", currentIndex := 0,
      tasks := [{ taskId := "MT-1", title := "Add Analytics events",
                  status := "In Progress",
                  draftSummary := some ("Added tracking events"),
                  finalSummary := some ("Added tracking events"),
                  state := AgentTaskState.completed }] }
    0
    { taskId := "MT-1", title := "Add Analytics events", status := "In Progress",
      draftSummary := some ("Added tracking events"),
      state := AgentTaskState.awaiting_confirm }
    { taskId := "MT-1", title := "Add Analytics events", status := "In Progress",
      draftSummary := some ("Added tracking events"),
      finalSummary := some ("Added tracking events"),
      state := AgentTaskState.completed }
    ?_ (by decide) (by decide) (by decide) (by decide) (by decide)
  exact ReachableSession.step ("no changes") scenarioNullEnv
    (ReachableSession.step ("completed, added tracking") scenarioDraftEnv
      (ReachableSession.start ("u1") [scenarioIssue]))

/-- Witness for C6: committing the first of two tasks advances
`currentIndex` to the second task and resets it to `AWAITING_UPDATE`. -/
theorem C6_advance_after_commit_witness :
    ∃ j0 tj0, 0 < j0 ∧ scenarioTwoTaskSession.tasks.get? j0 = some tj0 ∧
      tj0.state ≠ AgentTaskState.completed ∧
      (∀ k tk, 0 < k → k < j0 → scenarioTwoTaskSession.tasks.get? k = some tk →
         tk.state = AgentTaskState.completed) ∧
      scenarioTwoTaskAfter.currentIndex = (j0 : Int) ∧
      (∃ tj0', scenarioTwoTaskAfter.tasks.get? j0 = some tj0' ∧
         tj0'.state = AgentTaskState.awaiting_update) :=
  ((C6_advance_after_commit scenarioTwoTaskSession ("yes") scenarioCommitEnv
      { taskId := "T-1", title := "First task", status := "In Progress",
        draftSummary := some ("draft one"),
        state := AgentTaskState.awaiting_confirm }
      (advanceReply ("Second task")) scenarioTwoTaskAfter
      (by decide) (by decide) (by decide) (by decide) (by decide) (by decide)).2.1)
    1
    { taskId := "T-2", title := "Second task", status := "In Progress",
      state := AgentTaskState.awaiting_update }
    (by decide) (by decide) (by decide)

/-- Witness for C10: a whitespace-only edit result falls back to the
previous non-empty draft on a reachable session at `AWAITING_EDIT_INPUT`. -/
theorem C10_draft_nonempty_after_turn_witness :
    ∃ task' d,
      ({ userId := "u1", currentIndex := 0,
         tasks := [{ taskId := "MT-1", title := "Add Analytics events",
                     status := "In Progress",
                     draftSummary := some ("Added tracking events"),
                     state := AgentTaskState.awaiting_confirm }] } : AgentSession).tasks.get? 0 =
        some task' ∧
      task'.draftSummary = some d ∧ d ≠ "" := by
  refine (C10_draft_nonempty_after_turn scenarioAtEditInput ("make it shorter")
    scenarioEditWhitespaceEnv
    { taskId := "MT-1", title := "Add Analytics events", status := "In Progress",
      draftSummary := some ("Added tracking events"),
      state := AgentTaskState.awaiting_edit_input }
    (updatedSummaryReply (some ("Added tracking events")))
    { userId := "u1", currentIndex := 0,
      tasks := [{ taskId := "MT-1", title := "Add Analytics events",
                  status := "In Progress",
                  draftSummary := some ("Added tracking events"),
                  state := AgentTaskState.awaiting_confirm }] }
    ?_ (by decide) (by decide) (by decide) (Or.inr (by decide)) (by decide)).1
  exact ReachableSession.step ("yes") scenarioNullEnv
    (ReachableSession.step ("completed, added tracking") scenarioDraftEnv
      (ReachableSession.start ("u1") [scenarioIssue]))

end KTAssistant
